import Mathlib

/-!
Verification of the payment-platform synchronization engine
(app/services/stripe_sync/stripe_sync.py) against its specification.

The engine mirrors billing objects into a relational store.  We embed the
data model (entity records, stored rows, the per-kind tables), the store
primitives, and the operations of the event router, the referential
backfiller, the backfill orchestrator and the reconciliation helpers as
executable Lean functions, and prove the specified properties about them.

The generic store primitives live in a database client module that is not
part of the sources at hand (only its callers and its method declarations
are); those primitives are modelled from the specification text and are
marked as such in their doc comments.  Every other definition is a direct
translation of the corresponding Python function in stripe_sync.py.
-/

/-- A reference-valued field of a payload: absent, a plain string id, or a
nested object carrying an id (mirrors Python values None, str, dict). -/
inductive Ref where
  | missing
  | strRef (s : String)
  | objRef (id : String)
deriving DecidableEq, Repr

/-- Extraction used by the source at several places:
`x if isinstance(x, str) else x.get(the id key)`; absent gives none. -/
def Ref.toId : Ref → Option String
  | .missing => none
  | .strRef s => some s
  | .objRef i => some i

/-- String conversion used when the source writes `str(price_id)` on the
possibly-absent extracted id (Python renders None as the string None). -/
def Ref.refStr : Ref → String
  | .missing => "None"
  | .strRef s => s
  | .objRef i => i

/-- An element of an embedded sub-collection (subscription item, active
entitlement, refund under a charge, invoice or checkout-session line item).
Absent string fields are none; `extra` stands for the remaining payload
properties that the engine carries along unchanged. -/
structure Item where
  id : String
  object : String := ""
  price : Ref := .missing
  deleted : Option Bool := none
  quantity : Option Nat := none
  subscription : Option String := none
  feature : Ref := .missing
  customer : Option String := none
  livemode : Bool := false
  lookup_key : Option String := none
  extra : String := ""
deriving DecidableEq, Repr

/-- A paginated embedded list as delivered inside a payload:
the first page of data plus the has_more truncation flag. -/
structure EmbList where
  data : List Item
  has_more : Bool
deriving DecidableEq, Repr

/-- The payment sub-object of an invoice-payment payload. -/
structure PayRef where
  type : String := ""
  payment_intent : Option String := none
  charge : Option String := none
deriving DecidableEq, Repr

/-- An entity record: the typed payload of one billing object.  A missing
id or object is the empty string (falsy, as in the source truth tests);
missing foreign keys are none; `extra` stands for all remaining payload
properties, carried along unchanged. -/
structure Obj where
  id : String
  object : String := ""
  status : Option String := none
  deleted : Bool := false
  customer : Option String := none
  invoice : Option String := none
  subscription : Option String := none
  payment_intent : Option String := none
  charge : Option String := none
  product : Option String := none
  price : Option String := none
  quantity : Option Nat := none
  feature : Option String := none
  livemode : Bool := false
  lookup_key : Option String := none
  checkout_session : Option String := none
  items : Option EmbList := none
  refunds : Option EmbList := none
  lines : Option EmbList := none
  entitlements : Option EmbList := none
  payment : Option PayRef := none
  extra : String := ""
deriving DecidableEq, Repr

/-- A stored row: the persisted record together with the internal
sync-timestamp column used for write guarding. -/
structure Row where
  obj : Obj
  syncTs : Option Nat
deriving DecidableEq, Repr

/-- The relational store: one table per entity kind. -/
structure DB where
  products : List Row := []
  prices : List Row := []
  plans : List Row := []
  customers : List Row := []
  subscriptions : List Row := []
  subscription_items : List Row := []
  subscription_schedules : List Row := []
  invoices : List Row := []
  invoice_payments : List Row := []
  charges : List Row := []
  payment_intents : List Row := []
  payment_methods : List Row := []
  setup_intents : List Row := []
  disputes : List Row := []
  refunds : List Row := []
  reviews : List Row := []
  early_fraud_warnings : List Row := []
  tax_ids : List Row := []
  credit_notes : List Row := []
  checkout_sessions : List Row := []
  checkout_session_line_items : List Row := []
  features : List Row := []
  active_entitlements : List Row := []
deriving DecidableEq, Repr

/-- Engine configuration (the fields of StripeSyncConfig that influence the
behaviour under verification; a Python None toggle behaves as false and a
None revalidation list behaves as the empty list at every use site). -/
structure Config where
  auto_expand_lists : Bool := false
  backfill_related_entities : Bool := false
  revalidate_objects_via_stripe_api : List String := []
deriving Repr

/-- Exceptions that can cross the boundaries under verification:
a source-API invalid-request error carrying its code, any other
source-API failure, a malformed-payload key error, and the explicit
unhandled-webhook-event exception of the router. -/
inductive PyErr where
  | invalidRequest (code : String)
  | apiOther
  | keyErr
  | unhandledWebhook
deriving DecidableEq, Repr

/-- Computations that can raise. -/
abbrev M (α : Type) := Except PyErr α

/-- The source platform as the engine sees it: retrieval by kind and id
(which can fail), full drain of a filtered listing, and the current
wall-clock instant. -/
structure Api where
  retrieve : String → String → M Obj
  listAll : String → String → List Item
  now : Nat

/-- An inbound event envelope. -/
structure Event where
  type : String
  id : String := ""
  created : Nat := 0
  obj : Obj

/-- Modelled from the spec: the timestamp guard of the store client
(upsert_many_with_timestamp_protection, whose module is not among the
sources).  A write carrying a sync timestamp is skipped when the stored
row has a strictly newer stored timestamp. -/
def staleGuard (row : Row) (ts : Option Nat) : Bool :=
  match ts, row.syncTs with
  | some t2, some t1 => t2 < t1
  | _, _ => false

/-- Modelled from the spec: one record of the timestamp-guarded upsert.
The first stored row with the record's primary key is kept when the guard
rejects the write and replaced otherwise; with no such row the record is
appended.  Rows are never deleted. -/
def upsertRow (rec : Obj) (ts : Option Nat) : List Row → List Row
  | [] => [⟨rec, ts⟩]
  | row :: rest =>
    if row.obj.id = rec.id then
      (if staleGuard row ts then row else ⟨rec, ts⟩) :: rest
    else
      row :: upsertRow rec ts rest

/-- Modelled from the spec: upsert_many_with_timestamp_protection of the
store client (not among the sources).  Idempotent bulk insert-or-update
keyed by primary key; when a sync timestamp is supplied the write is only
applied per row when no existing row has a strictly newer stored
timestamp. -/
def upsertManyTP (t : List Row) (recs : List Obj) (ts : Option Nat) : List Row :=
  recs.foldl (fun acc r => upsertRow r ts acc) t

/-- Modelled from the spec: find_missing_entries of the store client (not
among the sources).  Set difference between the candidate ids and the ids
currently stored for the kind, ignoring soft-deleted rows. -/
def findMissingEntries (t : List Row) (ids : List String) : List String :=
  ids.filter (fun i => !(t.any (fun row => row.obj.id = i && row.obj.deleted = false)))

/-- Modelled from the spec: delete of the store client (not among the
sources).  Hard delete by primary key, reporting whether a row was
removed. -/
def deleteRows (t : List Row) (i : String) : List Row × Bool :=
  (t.filter (fun row => row.obj.id ≠ i), t.any (fun row => row.obj.id = i))

/-- get_unique_ids of the source, with the dictionary key supplied as a
projection: collect the distinct truthy values of the key over the
entries (Python set order is abstracted to first-occurrence order). -/
def getUniqueIds (entries : List Obj) (key : Obj → Option String) : List String :=
  ((entries.filterMap key).filter (fun s => s ≠ "")).dedup

/-- get_unique_ids applied to embedded-list elements. -/
def getUniqueIdsItem (entries : List Item) (key : Item → Option String) : List String :=
  ((entries.filterMap key).filter (fun s => s ≠ "")).dedup

/-- chunk_array of the source: split a list into consecutive chunks of the
given size (the source never calls it with size zero; range with step
zero would raise, so size zero is mapped to no chunks). -/
def chunkArray : List α → Nat → List (List α)
  | _, 0 => []
  | [], _ + 1 => []
  | a :: l, n + 1 => ((a :: l).take (n + 1)) :: chunkArray ((a :: l).drop (n + 1)) (n + 1)
termination_by l _ => l.length
decreasing_by
  simp only [List.length_drop, List.length_cons]
  omega

/-- _fetch_missing_entities of the source: fetch each id in turn with the
supplied retrieval function, propagating any failure. -/
def fetchMissingEntities (ids : List String) (fetch : String → M Obj) : M (List Obj) :=
  ids.mapM fetch

/-- _expand_entity of the source, with the embedded list selected by a
getter/setter pair and the listing endpoint by its kind: when auto
expansion is on and the embedded list is truncated, the full drained list
replaces it with the truncation flag cleared. -/
def expandEntity (cfg : Config) (api : Api) (entities : List Obj)
    (get : Obj → Option EmbList) (set : Obj → EmbList → Obj)
    (listKind : String) : List Obj :=
  if !cfg.auto_expand_lists then entities
  else entities.map fun e =>
    match get e with
    | some l => if l.has_more then set e ⟨api.listAll listKind e.id, false⟩ else e
    | none => e

/-- Resolution of the per-call backfill override against the configured
toggle, as written at the head of every _upsert_* of the source. -/
def resolveBackfill (param : Option Bool) (cfg : Config) : Bool :=
  param.getD cfg.backfill_related_entities

/-- _upsert_customers of the source: split the batch into deleted and live
customers and route both (the latter first) to the customers table. -/
def upsertCustomers (db : DB) (customers : List Obj) (ts : Option Nat) : DB :=
  let deletedCs := customers.filter (fun c => c.deleted)
  let liveCs := customers.filter (fun c => !c.deleted)
  { db with customers := upsertManyTP (upsertManyTP db.customers liveCs ts) deletedCs ts }

/-- _backfill_customers of the source: fetch each customer id not stored
live and upsert the results (failures are logged and re-raised). -/
def backfillCustomers (api : Api) (db : DB) (ids : List String) : M DB := do
  let missing := findMissingEntries db.customers ids
  let objs ← fetchMissingEntities missing (api.retrieve "customer")
  pure (upsertCustomers db objs none)

/-- _upsert_products of the source. -/
def upsertProducts (db : DB) (products : List Obj) (ts : Option Nat) : DB :=
  { db with products := upsertManyTP db.products products ts }

/-- _backfill_products of the source. -/
def backfillProducts (api : Api) (db : DB) (ids : List String) : M DB := do
  let missing := findMissingEntries db.products ids
  let objs ← fetchMissingEntities missing (api.retrieve "product")
  pure (upsertProducts db objs none)

/-- _upsert_prices of the source. -/
def upsertPrices (cfg : Config) (api : Api) (db : DB) (prices : List Obj)
    (bf : Option Bool) (ts : Option Nat) : M DB := do
  let db1 ←
    if resolveBackfill bf cfg then
      backfillProducts api db (getUniqueIds prices (fun p => p.product))
    else pure db
  pure { db1 with prices := upsertManyTP db1.prices prices ts }

/-- _backfill_prices of the source. -/
def backfillPrices (cfg : Config) (api : Api) (db : DB) (ids : List String) : M DB := do
  let missing := findMissingEntries db.prices ids
  let objs ← fetchMissingEntities missing (api.retrieve "price")
  upsertPrices cfg api db objs none none

/-- _upsert_plans of the source. -/
def upsertPlans (cfg : Config) (api : Api) (db : DB) (plans : List Obj)
    (bf : Option Bool) (ts : Option Nat) : M DB := do
  let db1 ←
    if resolveBackfill bf cfg then
      backfillProducts api db (getUniqueIds plans (fun p => p.product))
    else pure db
  pure { db1 with plans := upsertManyTP db1.plans plans ts }

/-- _upsert_features of the source. -/
def upsertFeatures (db : DB) (features : List Obj) (ts : Option Nat) : DB :=
  { db with features := upsertManyTP db.features features ts }

/-- _backfill_features of the source (failures re-raised after logging). -/
def backfillFeatures (api : Api) (db : DB) (ids : List String) : M DB := do
  let missing := findMissingEntries db.features ids
  let objs ← fetchMissingEntities missing (api.retrieve "feature")
  pure (upsertFeatures db objs none)

/-- The modified record built for each subscription item before it is
stored: the item payload with the price collapsed to a string id (the
string None when absent, as Python str renders it), an explicit deleted
flag defaulting to false, and the quantity carried over. -/
def itemToSubItemRow (item : Item) : Obj :=
  { id := item.id, object := item.object,
    price := some item.price.refStr,
    deleted := item.deleted.getD false,
    quantity := item.quantity,
    subscription := item.subscription,
    feature := item.feature.toId,
    customer := item.customer,
    livemode := item.livemode,
    lookup_key := item.lookup_key,
    extra := item.extra }

/-- _upsert_subscription_items of the source. -/
def upsertSubscriptionItems (db : DB) (items : List Item) (ts : Option Nat) : DB :=
  let modified := items.map itemToSubItemRow
  { db with subscription_items := upsertManyTP db.subscription_items modified ts }

/-- _mark_deleted_subscription_items of the source: select the ids of the
live items stored for the subscription, diff them against the current
item ids, and flag the difference deleted; no row is removed. -/
def markDeletedSubscriptionItems (db : DB) (subId : String)
    (currentIds : List String) : DB × Nat :=
  let rows := db.subscription_items.filter
    (fun r => r.obj.subscription == some subId && r.obj.deleted == false)
  let deletedIds := (rows.map (fun r => r.obj.id)).filter
    (fun i => !(currentIds.contains i))
  if deletedIds.length > 0 then
    let updated := db.subscription_items.map fun r =>
      if deletedIds.contains r.obj.id then { r with obj := { r.obj with deleted := true } } else r
    let cnt := (db.subscription_items.filter (fun r => deletedIds.contains r.obj.id)).length
    ({ db with subscription_items := updated }, cnt)
  else
    (db, 0)

/-- The embedded item list of a subscription payload, as the source reads
it: the data of the items dictionary, or nothing. -/
def subItemsData (sub : Obj) : List Item :=
  match sub.items with
  | some el => el.data
  | none => []

/-- _upsert_subscriptions of the source: optional customer backfill, item
list expansion, the guarded write of the subscriptions, the write of all
embedded items, and per subscription the deletion-flag reconciliation. -/
def upsertSubscriptions (cfg : Config) (api : Api) (db : DB) (subs : List Obj)
    (bf : Option Bool) (ts : Option Nat) : M DB := do
  let db1 ←
    if resolveBackfill bf cfg then
      backfillCustomers api db (getUniqueIds subs (fun s => s.customer))
    else pure db
  let subs1 := expandEntity cfg api subs (fun s => s.items)
    (fun s l => { s with items := some l }) "subscription_item"
  let db2 := { db1 with subscriptions := upsertManyTP db1.subscriptions subs1 ts }
  let allItems := subs1.foldl (fun acc s => acc ++ subItemsData s) []
  let db3 := upsertSubscriptionItems db2 allItems ts
  let db4 := subs1.foldl
    (fun d s => (markDeletedSubscriptionItems d s.id ((subItemsData s).map (fun i => i.id))).1)
    db3
  pure db4

/-- _backfill_subscriptions of the source. -/
def backfillSubscriptions (cfg : Config) (api : Api) (db : DB) (ids : List String) : M DB := do
  let missing := findMissingEntries db.subscriptions ids
  let objs ← fetchMissingEntities missing (api.retrieve "subscription")
  upsertSubscriptions cfg api db objs none none

/-- _upsert_invoices of the source. -/
def upsertInvoices (cfg : Config) (api : Api) (db : DB) (invoices : List Obj)
    (bf : Option Bool) (ts : Option Nat) : M DB := do
  let db1 ←
    if resolveBackfill bf cfg then do
      let d ← backfillCustomers api db (getUniqueIds invoices (fun i => i.customer))
      backfillSubscriptions cfg api d (getUniqueIds invoices (fun i => i.subscription))
    else pure db
  let invoices1 := expandEntity cfg api invoices (fun i => i.lines)
    (fun i l => { i with lines := some l }) "invoice_line_item"
  pure { db1 with invoices := upsertManyTP db1.invoices invoices1 ts }

/-- _backfill_invoices of the source. -/
def backfillInvoices (cfg : Config) (api : Api) (db : DB) (ids : List String) : M DB := do
  let missing := findMissingEntries db.invoices ids
  let objs ← fetchMissingEntities missing (api.retrieve "invoice")
  upsertInvoices cfg api db objs none none

/-- _upsert_charges of the source: optional customer and invoice backfill,
refund-list expansion, then the guarded write. -/
def upsertCharges (cfg : Config) (api : Api) (db : DB) (charges : List Obj)
    (bf : Option Bool) (ts : Option Nat) : M DB := do
  let db1 ←
    if resolveBackfill bf cfg then do
      let d ← backfillCustomers api db (getUniqueIds charges (fun c => c.customer))
      backfillInvoices cfg api d (getUniqueIds charges (fun c => c.invoice))
    else pure db
  let charges1 := expandEntity cfg api charges (fun c => c.refunds)
    (fun c l => { c with refunds := some l }) "refund"
  pure { db1 with charges := upsertManyTP db1.charges charges1 ts }

/-- _backfill_charges of the source. -/
def backfillCharges (cfg : Config) (api : Api) (db : DB) (ids : List String) : M DB := do
  let missing := findMissingEntries db.charges ids
  let objs ← fetchMissingEntities missing (api.retrieve "charge")
  upsertCharges cfg api db objs none none

/-- _upsert_payment_intents of the source. -/
def upsertPaymentIntents (cfg : Config) (api : Api) (db : DB) (pis : List Obj)
    (bf : Option Bool) (ts : Option Nat) : M DB := do
  let db1 ←
    if resolveBackfill bf cfg then do
      let d ← backfillCustomers api db (getUniqueIds pis (fun p => p.customer))
      backfillInvoices cfg api d (getUniqueIds pis (fun p => p.invoice))
    else pure db
  pure { db1 with payment_intents := upsertManyTP db1.payment_intents pis ts }

/-- _backfill_payment_intents of the source. -/
def backfillPaymentIntents (cfg : Config) (api : Api) (db : DB) (ids : List String) : M DB := do
  let missing := findMissingEntries db.payment_intents ids
  let objs ← fetchMissingEntities missing (api.retrieve "payment_intent")
  upsertPaymentIntents cfg api db objs none none

/-- _upsert_credit_notes of the source. -/
def upsertCreditNotes (cfg : Config) (api : Api) (db : DB) (cns : List Obj)
    (bf : Option Bool) (ts : Option Nat) : M DB := do
  let db1 ←
    if resolveBackfill bf cfg then do
      let d ← backfillCustomers api db (getUniqueIds cns (fun c => c.customer))
      backfillInvoices cfg api d (getUniqueIds cns (fun c => c.invoice))
    else pure db
  let cns1 := expandEntity cfg api cns (fun c => c.lines)
    (fun c l => { c with lines := some l }) "credit_note_line_item"
  pure { db1 with credit_notes := upsertManyTP db1.credit_notes cns1 ts }

/-- _upsert_early_fraud_warning of the source. -/
def upsertEarlyFraudWarning (cfg : Config) (api : Api) (db : DB) (efws : List Obj)
    (bf : Option Bool) (ts : Option Nat) : M DB := do
  let db1 ←
    if resolveBackfill bf cfg then do
      let d ← backfillPaymentIntents cfg api db (getUniqueIds efws (fun e => e.payment_intent))
      backfillCharges cfg api d (getUniqueIds efws (fun e => e.charge))
    else pure db
  pure { db1 with early_fraud_warnings := upsertManyTP db1.early_fraud_warnings efws ts }

/-- _upsert_refunds of the source. -/
def upsertRefunds (cfg : Config) (api : Api) (db : DB) (refunds : List Obj)
    (bf : Option Bool) (ts : Option Nat) : M DB := do
  let db1 ←
    if resolveBackfill bf cfg then do
      let d ← backfillPaymentIntents cfg api db (getUniqueIds refunds (fun r => r.payment_intent))
      backfillCharges cfg api d (getUniqueIds refunds (fun r => r.charge))
    else pure db
  pure { db1 with refunds := upsertManyTP db1.refunds refunds ts }

/-- _upsert_reviews of the source. -/
def upsertReviews (cfg : Config) (api : Api) (db : DB) (reviews : List Obj)
    (bf : Option Bool) (ts : Option Nat) : M DB := do
  let db1 ←
    if resolveBackfill bf cfg then do
      let d ← backfillPaymentIntents cfg api db (getUniqueIds reviews (fun r => r.payment_intent))
      backfillCharges cfg api d (getUniqueIds reviews (fun r => r.charge))
    else pure db
  pure { db1 with reviews := upsertManyTP db1.reviews reviews ts }

/-- _upsert_disputes of the source. -/
def upsertDisputes (cfg : Config) (api : Api) (db : DB) (disputes : List Obj)
    (bf : Option Bool) (ts : Option Nat) : M DB := do
  let db1 ←
    if resolveBackfill bf cfg then
      backfillCharges cfg api db (getUniqueIds disputes (fun d => d.charge))
    else pure db
  pure { db1 with disputes := upsertManyTP db1.disputes disputes ts }

/-- _upsert_payment_methods of the source (its Python default for the
override is an explicit false rather than None; call sites of the model
pass what the call in the source supplies). -/
def upsertPaymentMethods (cfg : Config) (api : Api) (db : DB) (pms : List Obj)
    (bf : Option Bool) (ts : Option Nat) : M DB := do
  let db1 ←
    if resolveBackfill bf cfg then
      backfillCustomers api db (getUniqueIds pms (fun p => p.customer))
    else pure db
  pure { db1 with payment_methods := upsertManyTP db1.payment_methods pms ts }

/-- _upsert_setup_intents of the source. -/
def upsertSetupIntents (cfg : Config) (api : Api) (db : DB) (sis : List Obj)
    (bf : Option Bool) (ts : Option Nat) : M DB := do
  let db1 ←
    if resolveBackfill bf cfg then
      backfillCustomers api db (getUniqueIds sis (fun s => s.customer))
    else pure db
  pure { db1 with setup_intents := upsertManyTP db1.setup_intents sis ts }

/-- _upsert_tax_ids of the source. -/
def upsertTaxIds (cfg : Config) (api : Api) (db : DB) (tids : List Obj)
    (bf : Option Bool) (ts : Option Nat) : M DB := do
  let db1 ←
    if resolveBackfill bf cfg then
      backfillCustomers api db (getUniqueIds tids (fun t => t.customer))
    else pure db
  pure { db1 with tax_ids := upsertManyTP db1.tax_ids tids ts }

/-- _upsert_subscription_schedules of the source. -/
def upsertSubscriptionSchedules (cfg : Config) (api : Api) (db : DB) (sss : List Obj)
    (bf : Option Bool) (ts : Option Nat) : M DB := do
  let db1 ←
    if resolveBackfill bf cfg then
      backfillCustomers api db (getUniqueIds sss (fun s => s.customer))
    else pure db
  pure { db1 with subscription_schedules := upsertManyTP db1.subscription_schedules sss ts }

/-- The payment-intent ids collected from the payment sub-objects of a
batch of invoice payments, as _upsert_invoice_payments gathers them. -/
def ipPaymentIntentIds (ips : List Obj) : List String :=
  (ips.filterMap fun ip =>
    match ip.payment with
    | some p =>
      if p.type = "payment_intent" then
        match p.payment_intent with
        | some s => if s ≠ "" then some s else none
        | none => none
      else none
    | none => none).dedup

/-- The charge ids collected from the payment sub-objects of a batch of
invoice payments, as _upsert_invoice_payments gathers them. -/
def ipChargeIds (ips : List Obj) : List String :=
  (ips.filterMap fun ip =>
    match ip.payment with
    | some p =>
      if p.type ≠ "payment_intent" && p.type = "charge" then
        match p.charge with
        | some s => if s ≠ "" then some s else none
        | none => none
      else none
    | none => none).dedup

/-- _upsert_invoice_payments of the source. -/
def upsertInvoicePayments (cfg : Config) (api : Api) (db : DB) (ips : List Obj)
    (bf : Option Bool) (ts : Option Nat) : M DB := do
  let db1 ←
    if resolveBackfill bf cfg then do
      let d ← backfillInvoices cfg api db (getUniqueIds ips (fun i => i.invoice))
      let d2 ← backfillPaymentIntents cfg api d (ipPaymentIntentIds ips)
      backfillCharges cfg api d2 (ipChargeIds ips)
    else pure db
  pure { db1 with invoice_payments := upsertManyTP db1.invoice_payments ips ts }

/-- The record built for each active entitlement before it is stored: the
entitlement id and object, the feature collapsed to its id, the customer
taken from the enclosing summary, livemode and the lookup key. -/
def entitlementToRow (customerId : String) (e : Item) : Obj :=
  { id := e.id, object := e.object,
    feature := e.feature.toId,
    customer := some customerId,
    livemode := e.livemode,
    lookup_key := e.lookup_key }

/-- _upsert_active_entitlements of the source (an entitlement whose
feature key is entirely absent would raise an attribute error in the
source before anything is written; the model raises likewise). -/
def upsertActiveEntitlements (cfg : Config) (api : Api) (db : DB)
    (customerId : String) (ents : List Item)
    (bf : Option Bool) (ts : Option Nat) : M DB := do
  let db1 ←
    if resolveBackfill bf cfg then do
      let d ← backfillCustomers api db (getUniqueIdsItem ents (fun e => e.customer))
      backfillFeatures api d (getUniqueIdsItem ents (fun e => e.feature.toId))
    else pure db
  if ents.any (fun e => e.feature == Ref.missing) then
    Except.error PyErr.keyErr
  else
    let t := upsertManyTP db1.active_entitlements (ents.map (entitlementToRow customerId)) ts
    pure { db1 with active_entitlements := t }

/-- _delete_removed_active_entitlements of the source: hard-delete every
stored entitlement row of the customer whose id is absent from the
current list, reporting how many rows were removed. -/
def deleteRemovedActiveEntitlements (db : DB) (customerId : String)
    (currentIds : List String) : DB × Nat :=
  let gone := fun (r : Row) =>
    r.obj.customer == some customerId && !(currentIds.contains r.obj.id)
  let remaining := db.active_entitlements.filter (fun r => !(gone r))
  let cnt := (db.active_entitlements.filter gone).length
  ({ db with active_entitlements := remaining }, cnt)

/-- _delete_product of the source. -/
def deleteProduct (db : DB) (i : String) : DB × Bool :=
  let (t, b) := deleteRows db.products i
  ({ db with products := t }, b)

/-- _delete_price of the source. -/
def deletePrice (db : DB) (i : String) : DB × Bool :=
  let (t, b) := deleteRows db.prices i
  ({ db with prices := t }, b)

/-- _delete_plan of the source. -/
def deletePlan (db : DB) (i : String) : DB × Bool :=
  let (t, b) := deleteRows db.plans i
  ({ db with plans := t }, b)

/-- _delete_tax_id of the source. -/
def deleteTaxId (db : DB) (i : String) : DB × Bool :=
  let (t, b) := deleteRows db.tax_ids i
  ({ db with tax_ids := t }, b)

/-- The price ids gathered for backfill from checkout-session line items
(_upsert_checkout_session_line_items of the source): a nested price
object contributes its id, a plain truthy value its string form, and the
collected values are filtered to the truthy ones. -/
def lineItemPriceIds (lineItems : List Item) : List String :=
  (lineItems.filterMap fun it =>
    match it.price with
    | .objRef i => some i
    | .strRef s => if s ≠ "" then some s else none
    | .missing => none).filter (fun s => s ≠ "")

/-- The modified record built for each checkout-session line item before
it is stored: the price collapsed to an optional id and the owning
checkout session attached. -/
def lineItemToRow (csId : String) (it : Item) : Obj :=
  { id := it.id, object := it.object,
    price := (match it.price with
      | .objRef i => some i
      | .strRef s => if s ≠ "" then some s else none
      | .missing => none),
    deleted := it.deleted.getD false,
    quantity := it.quantity,
    checkout_session := some csId,
    extra := it.extra }

/-- _upsert_checkout_session_line_items of the source. -/
def upsertCheckoutSessionLineItems (cfg : Config) (api : Api) (db : DB)
    (lineItems : List Item) (csId : String) (ts : Option Nat) : M DB := do
  let db1 ← backfillPrices cfg api db (lineItemPriceIds lineItems)
  let t := upsertManyTP db1.checkout_session_line_items (lineItems.map (lineItemToRow csId)) ts
  pure { db1 with checkout_session_line_items := t }

/-- _fill_checkout_sessions_line_items of the source: drain the line-item
listing of every session and upsert the results. -/
def fillCheckoutSessionsLineItems (cfg : Config) (api : Api) (db : DB)
    (csIds : List String) (ts : Option Nat) : M DB :=
  csIds.foldlM
    (fun d csId =>
      upsertCheckoutSessionLineItems cfg api d (api.listAll "checkout_session_line_item" csId) csId ts)
    db

/-- _upsert_checkout_sessions of the source. -/
def upsertCheckoutSessions (cfg : Config) (api : Api) (db : DB) (css : List Obj)
    (bf : Option Bool) (ts : Option Nat) : M DB := do
  let db1 ←
    if resolveBackfill bf cfg then do
      let d ← backfillCustomers api db (getUniqueIds css (fun c => c.customer))
      let d2 ← backfillSubscriptions cfg api d (getUniqueIds css (fun c => c.subscription))
      let d3 ← backfillPaymentIntents cfg api d2 (getUniqueIds css (fun c => c.payment_intent))
      backfillInvoices cfg api d3 (getUniqueIds css (fun c => c.invoice))
    else pure db
  let db2 := { db1 with checkout_sessions := upsertManyTP db1.checkout_sessions css ts }
  fillCheckoutSessionsLineItems cfg api db2 (css.map (fun c => c.id)) ts

/-- _get_sync_timestamp of the source: the current wall-clock instant
when the entity was refetched, the origination time of the event
otherwise. -/
def getSyncTimestamp (ev : Event) (refetched : Bool) (api : Api) : Nat :=
  if refetched then api.now else ev.created

/-- _should_refetch_entity of the source: false on an unset or empty
revalidation list, otherwise membership of the object type of the
entity. -/
def shouldRefetchEntity (cfg : Config) (entity : Obj) : Bool :=
  if cfg.revalidate_objects_via_stripe_api = [] then false
  else cfg.revalidate_objects_via_stripe_api.contains entity.object

/-- _fetch_or_use_webhook_data of the source: the webhook payload is used
verbatim when it carries no id or is already in a terminal state; a
refetch of the authoritative object happens only when the revalidation
policy lists the kind. -/
def fetchOrUseWebhookData (cfg : Config) (entity : Obj)
    (fetchFn : String → M Obj)
    (entityInFinalState : Option (Obj → Bool)) : M (Obj × Bool) :=
  if entity.id = "" then Except.ok (entity, false)
  else if (match entityInFinalState with
           | some p => p entity
           | none => false) then Except.ok (entity, false)
  else if shouldRefetchEntity cfg entity then
    (fetchFn entity.id).map (fun o => (o, true))
  else Except.ok (entity, false)

/-- The charge event types handled by process_event. -/
def chargeEventTypes : List String :=
  ["charge.captured", "charge.expired", "charge.failed",
   "charge.pending", "charge.refunded", "charge.succeeded", "charge.updated"]

/-- The checkout-session event types handled by process_event. -/
def checkoutSessionEventTypes : List String :=
  ["checkout.session.async_payment_failed",
   "checkout.session.async_payment_succeeded",
   "checkout.session.completed",
   "checkout.session.expired"]

/-- The customer event types handled by process_event (besides the
deletion event). -/
def customerEventTypes : List String :=
  ["customer.created", "customer.updated"]

/-- The subscription event types handled by process_event. -/
def subscriptionEventTypes : List String :=
  ["customer.subscription.created", "customer.subscription.deleted",
   "customer.subscription.paused", "customer.subscription.pending_update_applied",
   "customer.subscription.pending_update_expired", "customer.subscription.trial_will_end",
   "customer.subscription.resumed", "customer.subscription.updated"]

/-- The tax-id event types handled by process_event (besides the deletion
event). -/
def taxIdEventTypes : List String :=
  ["customer.tax_id.updated", "customer.tax_id.created"]

/-- The invoice event types handled by process_event. -/
def invoiceEventTypes : List String :=
  ["invoice.created", "invoice.deleted", "invoice.finalized",
   "invoice.finalization_failed", "invoice.paid", "invoice.payment_action_required",
   "invoice.payment_failed", "invoice.payment_succeeded", "invoice.upcoming",
   "invoice.sent", "invoice.voided", "invoice.marked_uncollectible", "invoice.updated"]

/-- The product create and update event types handled by process_event. -/
def productCUEventTypes : List String :=
  ["product.created", "product.updated"]

/-- The price create and update event types handled by process_event. -/
def priceCUEventTypes : List String :=
  ["price.created", "price.updated"]

/-- The plan create and update event types handled by process_event. -/
def planCUEventTypes : List String :=
  ["plan.created", "plan.updated"]

/-- The setup-intent event types handled by process_event. -/
def setupIntentEventTypes : List String :=
  ["setup_intent.canceled", "setup_intent.created",
   "setup_intent.requires_action", "setup_intent.setup_failed", "setup_intent.succeeded"]

/-- The subscription-schedule event types handled by process_event. -/
def subscriptionScheduleEventTypes : List String :=
  ["subscription_schedule.aborted", "subscription_schedule.canceled",
   "subscription_schedule.completed", "subscription_schedule.created",
   "subscription_schedule.expiring", "subscription_schedule.released",
   "subscription_schedule.updated"]

/-- The payment-method event types handled by process_event. -/
def paymentMethodEventTypes : List String :=
  ["payment_method.attached", "payment_method.automatically_updated",
   "payment_method.detached", "payment_method.updated"]

/-- The dispute event types handled by process_event. -/
def disputeEventTypes : List String :=
  ["charge.dispute.created", "charge.dispute.funds_reinstated",
   "charge.dispute.funds_withdrawn", "charge.dispute.updated", "charge.dispute.closed"]

/-- The payment-intent event types handled by process_event. -/
def paymentIntentEventTypes : List String :=
  ["payment_intent.amount_capturable_updated", "payment_intent.canceled",
   "payment_intent.created", "payment_intent.partially_funded",
   "payment_intent.payment_failed", "payment_intent.processing",
   "payment_intent.requires_action", "payment_intent.succeeded"]

/-- The credit-note event types handled by process_event. -/
def creditNoteEventTypes : List String :=
  ["credit_note.created", "credit_note.updated", "credit_note.voided"]

/-- The early-fraud-warning event types handled by process_event. -/
def earlyFraudWarningEventTypes : List String :=
  ["radar.early_fraud_warning.created", "radar.early_fraud_warning.updated"]

/-- The refund event types handled by process_event. -/
def refundEventTypes : List String :=
  ["refund.created", "refund.failed", "refund.updated", "charge.refund.updated"]

/-- The review event types handled by process_event. -/
def reviewEventTypes : List String :=
  ["review.closed", "review.opened"]

/-- Every event type for which process_event has a handler branch, in the
order of the dispatch chain of the source. -/
def handledEventTypes : List String :=
  chargeEventTypes ++ ["customer.deleted"] ++ checkoutSessionEventTypes ++
  customerEventTypes ++ subscriptionEventTypes ++ taxIdEventTypes ++
  ["customer.tax_id.deleted"] ++ invoiceEventTypes ++ productCUEventTypes ++
  ["product.deleted"] ++ priceCUEventTypes ++ ["price.deleted"] ++
  planCUEventTypes ++ ["plan.deleted"] ++ setupIntentEventTypes ++
  subscriptionScheduleEventTypes ++ paymentMethodEventTypes ++
  disputeEventTypes ++ paymentIntentEventTypes ++ creditNoteEventTypes ++
  earlyFraudWarningEventTypes ++ refundEventTypes ++ reviewEventTypes ++
  ["entitlements.active_entitlement_summary.updated", "invoice_payment.paid"]

/-- The terminal-state test of the charge branch of process_event. -/
def chargeFinal (c : Obj) : Bool :=
  c.status == some "failed" || c.status == some "succeeded"

/-- The terminal-state test of the customer branch of process_event. -/
def customerFinal (c : Obj) : Bool :=
  c.deleted

/-- The terminal-state test of the subscription branch of process_event. -/
def subscriptionFinal (s : Obj) : Bool :=
  s.status == some "canceled" || s.status == some "incomplete_expired"

/-- The terminal-state test of the invoice branch of process_event. -/
def invoiceFinal (i : Obj) : Bool :=
  i.status == some "void"

/-- The terminal-state test of the setup-intent branch of process_event. -/
def setupIntentFinal (s : Obj) : Bool :=
  s.status == some "canceled" || s.status == some "succeeded"

/-- The terminal-state test of the subscription-schedule branch of
process_event. -/
def subscriptionScheduleFinal (s : Obj) : Bool :=
  s.status == some "canceled" || s.status == some "completed"

/-- The terminal-state test of the dispute branch of process_event. -/
def disputeFinal (d : Obj) : Bool :=
  d.status == some "won" || d.status == some "lost"

/-- The terminal-state test of the payment-intent branch of
process_event. -/
def paymentIntentFinal (p : Obj) : Bool :=
  p.status == some "canceled" || p.status == some "succeeded"

/-- The terminal-state test of the credit-note branch of process_event. -/
def creditNoteFinal (c : Obj) : Bool :=
  c.status == some "void"

/-- The minimal deleted-customer record built by the customer.deleted
branch of process_event. -/
def deletedCustomerRecord (i : String) : Obj :=
  { id := i, object := "customer", deleted := true }

/-- The product, price and plan create-or-update branches of
process_event share this shape: refetch or use the payload, upsert, and
convert a resource-missing invalid-request error raised inside the branch
into a hard delete of the row named by the event payload. -/
def handleCatalogCU (cfg : Config) (api : Api) (db : DB) (ev : Event)
    (kind : String)
    (upsert : DB → Obj → Bool → M DB)
    (del : DB → String → DB) : M DB :=
  let attempt : M DB := do
    let (entity, refetched) ← fetchOrUseWebhookData cfg ev.obj (api.retrieve kind) none
    upsert db entity refetched
  match attempt with
  | Except.ok d => Except.ok d
  | Except.error (PyErr.invalidRequest code) =>
    if code = "resource_missing" then Except.ok (del db ev.obj.id)
    else Except.error (PyErr.invalidRequest code)
  | Except.error e => Except.error e

/-- process_event of the source: the full dispatch chain of the event
router, branch for branch in the order of the source, raising the
unhandled-webhook exception on any event type with no handler. -/
def processEvent (cfg : Config) (api : Api) (db : DB) (ev : Event) : M DB :=
  let t := ev.type
  if t ∈ chargeEventTypes then do
    let (entity, refetched) ← fetchOrUseWebhookData cfg ev.obj (api.retrieve "charge") (some chargeFinal)
    upsertCharges cfg api db [entity] (some false) (some (getSyncTimestamp ev refetched api))
  else if t = "customer.deleted" then
    pure (upsertCustomers db [deletedCustomerRecord ev.obj.id] (some (getSyncTimestamp ev false api)))
  else if t ∈ checkoutSessionEventTypes then do
    let (entity, refetched) ← fetchOrUseWebhookData cfg ev.obj (api.retrieve "checkout.session") none
    upsertCheckoutSessions cfg api db [entity] (some false) (some (getSyncTimestamp ev refetched api))
  else if t ∈ customerEventTypes then do
    let (entity, refetched) ← fetchOrUseWebhookData cfg ev.obj (api.retrieve "customer") (some customerFinal)
    pure (upsertCustomers db [entity] (some (getSyncTimestamp ev refetched api)))
  else if t ∈ subscriptionEventTypes then do
    let (entity, refetched) ← fetchOrUseWebhookData cfg ev.obj (api.retrieve "subscription") (some subscriptionFinal)
    upsertSubscriptions cfg api db [entity] (some false) (some (getSyncTimestamp ev refetched api))
  else if t ∈ taxIdEventTypes then do
    let (entity, refetched) ← fetchOrUseWebhookData cfg ev.obj (api.retrieve "tax_id") none
    upsertTaxIds cfg api db [entity] (some false) (some (getSyncTimestamp ev refetched api))
  else if t = "customer.tax_id.deleted" then
    pure (deleteTaxId db ev.obj.id).1
  else if t ∈ invoiceEventTypes then do
    let (entity, refetched) ← fetchOrUseWebhookData cfg ev.obj (api.retrieve "invoice") (some invoiceFinal)
    upsertInvoices cfg api db [entity] (some false) (some (getSyncTimestamp ev refetched api))
  else if t ∈ productCUEventTypes then
    handleCatalogCU cfg api db ev "product"
      (fun d entity refetched =>
        pure (upsertProducts d [entity] (some (getSyncTimestamp ev refetched api))))
      (fun d i => (deleteProduct d i).1)
  else if t = "product.deleted" then
    pure (deleteProduct db ev.obj.id).1
  else if t ∈ priceCUEventTypes then
    handleCatalogCU cfg api db ev "price"
      (fun d entity refetched =>
        upsertPrices cfg api d [entity] (some false) (some (getSyncTimestamp ev refetched api)))
      (fun d i => (deletePrice d i).1)
  else if t = "price.deleted" then
    pure (deletePrice db ev.obj.id).1
  else if t ∈ planCUEventTypes then
    handleCatalogCU cfg api db ev "plan"
      (fun d entity refetched =>
        upsertPlans cfg api d [entity] (some false) (some (getSyncTimestamp ev refetched api)))
      (fun d i => (deletePlan d i).1)
  else if t = "plan.deleted" then
    pure (deletePlan db ev.obj.id).1
  else if t ∈ setupIntentEventTypes then do
    let (entity, refetched) ← fetchOrUseWebhookData cfg ev.obj (api.retrieve "setup_intent") (some setupIntentFinal)
    upsertSetupIntents cfg api db [entity] (some false) (some (getSyncTimestamp ev refetched api))
  else if t ∈ subscriptionScheduleEventTypes then do
    let (entity, refetched) ← fetchOrUseWebhookData cfg ev.obj (api.retrieve "subscription_schedule") (some subscriptionScheduleFinal)
    upsertSubscriptionSchedules cfg api db [entity] (some false) (some (getSyncTimestamp ev refetched api))
  else if t ∈ paymentMethodEventTypes then do
    let (entity, refetched) ← fetchOrUseWebhookData cfg ev.obj (api.retrieve "payment_method") none
    upsertPaymentMethods cfg api db [entity] (some false) (some (getSyncTimestamp ev refetched api))
  else if t ∈ disputeEventTypes then do
    let (entity, refetched) ← fetchOrUseWebhookData cfg ev.obj (api.retrieve "dispute") (some disputeFinal)
    upsertDisputes cfg api db [entity] (some false) (some (getSyncTimestamp ev refetched api))
  else if t ∈ paymentIntentEventTypes then do
    let (entity, refetched) ← fetchOrUseWebhookData cfg ev.obj (api.retrieve "payment_intent") (some paymentIntentFinal)
    upsertPaymentIntents cfg api db [entity] (some false) (some (getSyncTimestamp ev refetched api))
  else if t ∈ creditNoteEventTypes then do
    let (entity, refetched) ← fetchOrUseWebhookData cfg ev.obj (api.retrieve "credit_note") (some creditNoteFinal)
    upsertCreditNotes cfg api db [entity] (some false) (some (getSyncTimestamp ev refetched api))
  else if t ∈ earlyFraudWarningEventTypes then do
    let (entity, refetched) ← fetchOrUseWebhookData cfg ev.obj (api.retrieve "early_fraud_warning") none
    upsertEarlyFraudWarning cfg api db [entity] (some false) (some (getSyncTimestamp ev refetched api))
  else if t ∈ refundEventTypes then do
    let (entity, refetched) ← fetchOrUseWebhookData cfg ev.obj (api.retrieve "refund") none
    upsertRefunds cfg api db [entity] (some false) (some (getSyncTimestamp ev refetched api))
  else if t ∈ reviewEventTypes then do
    let (entity, refetched) ← fetchOrUseWebhookData cfg ev.obj (api.retrieve "review") none
    upsertReviews cfg api db [entity] (some false) (some (getSyncTimestamp ev refetched api))
  else if t = "entitlements.active_entitlement_summary.updated" then
    match ev.obj.entitlements with
    | none => Except.error PyErr.keyErr
    | some el =>
      match ev.obj.customer with
      | none => Except.error PyErr.keyErr
      | some cust =>
        let refetched := cfg.revalidate_objects_via_stripe_api.contains "entitlements"
        let ents := if refetched then api.listAll "entitlements.active_entitlement" cust else el.data
        let db1 := (deleteRemovedActiveEntitlements db cust (ents.map (fun e => e.id))).1
        upsertActiveEntitlements cfg api db1 cust ents (some false) (some (getSyncTimestamp ev refetched api))
  else if t = "invoice_payment.paid" then do
    let (entity, refetched) ← fetchOrUseWebhookData cfg ev.obj (api.retrieve "invoice_payment") none
    upsertInvoicePayments cfg api db [entity] (some false) (some (getSyncTimestamp ev refetched api))
  else
    Except.error PyErr.unhandledWebhook

/-- Whether the first character list starts with the second. -/
def charsStartWith : List Char → List Char → Bool
  | _, [] => true
  | [], _ :: _ => false
  | c :: cs, d :: ds => c = d && charsStartWith cs ds

/-- The startswith test of Python on strings, over the character lists. -/
def strStartsWith (s p : String) : Bool :=
  charsStartWith s.data p.data

/-- The recognised id conventions of sync_single_entity, in the order of
its dispatch chain (the dispute convention has two spellings). -/
def knownIdStarts : List String :=
  ["cus_", "in_", "price_", "prod_", "sub_", "seti_", "pm_", "dp_", "du_",
   "ch_", "pi_", "txi_", "cn_", "issfr_", "prv_", "re_", "inpay_", "feat_", "cs_"]

/-- sync_single_entity of the source: dispatch on the id convention,
retrieve the entity and upsert it; an id matching no convention falls off
the chain and nothing happens.  A retrieved customer that is deleted is
not upserted. -/
def syncSingleEntity (cfg : Config) (api : Api) (db : DB) (stripeId : String) : M DB :=
  if strStartsWith stripeId "cus_" then do
    let customer ← api.retrieve "customer" stripeId
    if !customer.deleted then
      pure (upsertCustomers db [customer] none)
    else
      pure db
  else if strStartsWith stripeId "in_" then do
    let invoice ← api.retrieve "invoice" stripeId
    upsertInvoices cfg api db [invoice] none none
  else if strStartsWith stripeId "price_" then do
    let price ← api.retrieve "price" stripeId
    upsertPrices cfg api db [price] none none
  else if strStartsWith stripeId "prod_" then do
    let product ← api.retrieve "product" stripeId
    pure (upsertProducts db [product] none)
  else if strStartsWith stripeId "sub_" then do
    let subscription ← api.retrieve "subscription" stripeId
    upsertSubscriptions cfg api db [subscription] none none
  else if strStartsWith stripeId "seti_" then do
    let si ← api.retrieve "setup_intent" stripeId
    upsertSetupIntents cfg api db [si] none none
  else if strStartsWith stripeId "pm_" then do
    let pm ← api.retrieve "payment_method" stripeId
    upsertPaymentMethods cfg api db [pm] (some false) none
  else if strStartsWith stripeId "dp_" || strStartsWith stripeId "du_" then do
    let dispute ← api.retrieve "dispute" stripeId
    upsertDisputes cfg api db [dispute] none none
  else if strStartsWith stripeId "ch_" then do
    let charge ← api.retrieve "charge" stripeId
    upsertCharges cfg api db [charge] (some true) none
  else if strStartsWith stripeId "pi_" then do
    let pi ← api.retrieve "payment_intent" stripeId
    upsertPaymentIntents cfg api db [pi] none none
  else if strStartsWith stripeId "txi_" then do
    let taxId ← api.retrieve "tax_id" stripeId
    upsertTaxIds cfg api db [taxId] none none
  else if strStartsWith stripeId "cn_" then do
    let cn ← api.retrieve "credit_note" stripeId
    upsertCreditNotes cfg api db [cn] none none
  else if strStartsWith stripeId "issfr_" then do
    let efw ← api.retrieve "early_fraud_warning" stripeId
    upsertEarlyFraudWarning cfg api db [efw] none none
  else if strStartsWith stripeId "prv_" then do
    let review ← api.retrieve "review" stripeId
    upsertReviews cfg api db [review] none none
  else if strStartsWith stripeId "re_" then do
    let refund ← api.retrieve "refund" stripeId
    upsertRefunds cfg api db [refund] none none
  else if strStartsWith stripeId "inpay_" then do
    let ip ← api.retrieve "invoice_payment" stripeId
    upsertInvoicePayments cfg api db [ip] none none
  else if strStartsWith stripeId "feat_" then do
    let feature ← api.retrieve "feature" stripeId
    pure (upsertFeatures db [feature] none)
  else if strStartsWith stripeId "cs_" then do
    let cs ← api.retrieve "checkout.session" stripeId
    upsertCheckoutSessions cfg api db [cs] none none
  else
    pure db

/-- The accumulation loop of _fetch_and_upsert of the source: walk the
drained enumeration, append each record to the pending chunk and count
it, flush the chunk to an upsert call whenever it reaches the chunk size,
and flush a non-empty remainder at the end.  The first component of the
result is the sequence of issued upsert calls. -/
def fetchAndUpsertGo (chunkSize : Nat) :
    List α → List α → List (List α) → Nat → List (List α) × Nat
  | [], chunk, calls, synced =>
    (if chunk.length > 0 then calls ++ [chunk] else calls, synced)
  | x :: rest, chunk, calls, synced =>
    let chunk1 := chunk ++ [x]
    let synced1 := synced + 1
    if chunk1.length ≥ chunkSize then
      fetchAndUpsertGo chunkSize rest [] (calls ++ [chunk1]) synced1
    else
      fetchAndUpsertGo chunkSize rest chunk1 calls synced1

/-- _fetch_and_upsert of the source over an already-drained enumeration:
the sequence of upsert calls issued (with the fixed internal chunk size
of 250) together with the returned synced count. -/
def fetchAndUpsert (items : List α) : List (List α) × Nat :=
  fetchAndUpsertGo 250 items [] [] 0

deriving instance DecidableEq for Except

/-- A table stores a row under the given primary key. -/
def hasId (t : List Row) (i : String) : Prop :=
  ∃ row ∈ t, row.obj.id = i

/-- A table stores a live (not soft-deleted) row under the given key. -/
def hasLiveId (t : List Row) (i : String) : Prop :=
  ∃ row ∈ t, row.obj.id = i ∧ row.obj.deleted = false

theorem upsertRow_keeps (rec : Obj) (ts : Option Nat) (t : List Row) (i : String)
    (h : hasId t i) : hasId (upsertRow rec ts t) i := by
  induction t with
  | nil => obtain ⟨row, hmem, _⟩ := h; exact absurd hmem (List.not_mem_nil row)
  | cons row rest ih =>
    obtain ⟨w, hw, hwi⟩ := h
    rw [upsertRow]
    by_cases hid : row.obj.id = rec.id
    · simp only [hid, if_true]
      rcases List.mem_cons.mp hw with h1 | h1
      · subst h1
        by_cases hg : staleGuard w ts
        · exact ⟨w, by simp [hg], hwi⟩
        · refine ⟨⟨rec, ts⟩, by simp [hg], ?_⟩
          simp only []
          rw [← hwi]; exact hid.symm
      · by_cases hg : staleGuard row ts
        · exact ⟨w, by simp [hg, h1], hwi⟩
        · exact ⟨w, by simp [hg, h1], hwi⟩
    · simp only [hid, if_false]
      rcases List.mem_cons.mp hw with h1 | h1
      · exact ⟨w, by simp [h1], hwi⟩
      · obtain ⟨v, hv, hvi⟩ := ih ⟨w, h1, hwi⟩
        exact ⟨v, List.mem_cons_of_mem _ hv, hvi⟩

theorem upsertRow_adds (rec : Obj) (ts : Option Nat) (t : List Row) :
    hasId (upsertRow rec ts t) rec.id := by
  induction t with
  | nil => exact ⟨⟨rec, ts⟩, by simp [upsertRow], rfl⟩
  | cons row rest ih =>
    rw [upsertRow]
    by_cases hid : row.obj.id = rec.id
    · simp only [hid, if_true]
      by_cases hg : staleGuard row ts
      · exact ⟨row, by simp [hg], hid⟩
      · exact ⟨⟨rec, ts⟩, by simp [hg], rfl⟩
    · simp only [hid, if_false]
      obtain ⟨v, hv, hvi⟩ := ih
      exact ⟨v, List.mem_cons_of_mem _ hv, hvi⟩

theorem upsertManyTP_keeps (t : List Row) (recs : List Obj) (ts : Option Nat) (i : String)
    (h : hasId t i) : hasId (upsertManyTP t recs ts) i := by
  induction recs generalizing t with
  | nil => exact h
  | cons r rest ih => exact ih _ (upsertRow_keeps r ts t i h)

theorem upsertManyTP_adds (t : List Row) (recs : List Obj) (ts : Option Nat)
    (rec : Obj) (h : rec ∈ recs) : hasId (upsertManyTP t recs ts) rec.id := by
  induction recs generalizing t with
  | nil => exact absurd h (List.not_mem_nil rec)
  | cons r rest ih =>
    rcases List.mem_cons.mp h with h1 | h1
    · subst h1
      exact upsertManyTP_keeps _ rest ts rec.id (upsertRow_adds rec ts t)
    · exact ih _ h1

theorem findMissingEntries_cases (t : List Row) (ids : List String) (i : String)
    (h : i ∈ ids) : i ∈ findMissingEntries t ids ∨ hasLiveId t i := by
  by_cases hm : i ∈ findMissingEntries t ids
  · exact Or.inl hm
  · right
    rw [findMissingEntries, List.mem_filter] at hm
    push_neg at hm
    have := hm h
    simp only [Bool.not_eq_true, Bool.not_eq_false] at this
    have h2 : t.any (fun row => decide (row.obj.id = i) && decide (row.obj.deleted = false)) = true := by
      simpa using this
    rw [List.any_eq_true] at h2
    obtain ⟨row, hrow, hp⟩ := h2
    rw [Bool.and_eq_true, decide_eq_true_iff, decide_eq_true_iff] at hp
    exact ⟨row, hrow, hp.1, hp.2⟩

theorem upsertRow_mem_cases (rec : Obj) (ts : Option Nat) (t : List Row) (w : Row)
    (h : w ∈ upsertRow rec ts t) : w ∈ t ∨ w = ⟨rec, ts⟩ := by
  induction t with
  | nil =>
    rw [upsertRow] at h
    rcases List.mem_singleton.mp h with h1
    exact Or.inr h1
  | cons row rest ih =>
    rw [upsertRow] at h
    by_cases hid : row.obj.id = rec.id
    · simp only [hid, if_true] at h
      by_cases hg : staleGuard row ts
      · simp only [hg, if_true] at h
        exact Or.inl h
      · simp only [hg, if_false] at h
        rcases List.mem_cons.mp h with h1 | h1
        · exact Or.inr h1
        · exact Or.inl (List.mem_cons_of_mem _ h1)
    · simp only [hid, if_false] at h
      rcases List.mem_cons.mp h with h1 | h1
      · exact Or.inl (h1 ▸ List.mem_cons_self row rest)
      · rcases ih h1 with h2 | h2
        · exact Or.inl (List.mem_cons_of_mem _ h2)
        · exact Or.inr h2

theorem upsertRow_stale_keeps (rec : Obj) (T2 : Nat) (t : List Row) (r : Row) (T1 : Nat)
    (hr : r ∈ t) (hts : r.syncTs = some T1) (hlt : T2 < T1)
    (hu : ∀ row ∈ t, row.obj.id = r.obj.id → row = r) :
    r ∈ upsertRow rec (some T2) t ∧
      ∀ row ∈ upsertRow rec (some T2) t, row.obj.id = r.obj.id → row = r := by
  induction t with
  | nil => exact absurd hr (List.not_mem_nil r)
  | cons row rest ih =>
    rw [upsertRow]
    by_cases hid : row.obj.id = rec.id
    · simp only [hid, if_true]
      by_cases hg : staleGuard row (some T2)
      · simp only [hg, if_true]
        exact ⟨hr, hu⟩
      · simp only [hg, if_false]
        have hrow_ne : row ≠ r := by
          intro hEq
          apply hg
          rw [hEq]
          simp [staleGuard, hts, hlt]
        have hrrest : r ∈ rest := by
          rcases List.mem_cons.mp hr with h1 | h1
          · exact absurd h1.symm hrow_ne
          · exact h1
        refine ⟨List.mem_cons_of_mem _ hrrest, ?_⟩
        intro w hw hwi
        rcases List.mem_cons.mp hw with h1 | h1
        · exfalso
          subst h1
          have hri : row.obj.id = r.obj.id := by
            rw [hid]
            exact hwi
          exact hrow_ne (hu row (List.mem_cons_self row rest) hri)
        · exact hu w (List.mem_cons_of_mem _ h1) hwi
    · simp only [hid, if_false]
      rcases List.mem_cons.mp hr with h1 | h1
      · subst h1
        refine ⟨List.mem_cons_self _ _, ?_⟩
        intro w hw hwi
        rcases List.mem_cons.mp hw with h2 | h2
        · exact h2
        · rcases upsertRow_mem_cases rec (some T2) rest w h2 with h3 | h3
          · exact hu w (List.mem_cons_of_mem _ h3) hwi
          · exfalso
            apply hid
            rw [← hwi, h3]
      · have hu' : ∀ row ∈ rest, row.obj.id = r.obj.id → row = r := by
          intro w hw hwi
          exact hu w (List.mem_cons_of_mem _ hw) hwi
        obtain ⟨ihm, ihu⟩ := ih h1 hu'
        refine ⟨List.mem_cons_of_mem _ ihm, ?_⟩
        intro w hw hwi
        rcases List.mem_cons.mp hw with h2 | h2
        · subst h2
          exact hu w (List.mem_cons_self _ _) hwi
        · exact ihu w h2 hwi

theorem upsertManyTP_stale_keeps (t : List Row) (recs : List Obj) (r : Row) (T1 T2 : Nat)
    (hr : r ∈ t) (hts : r.syncTs = some T1) (hlt : T2 < T1)
    (hu : ∀ row ∈ t, row.obj.id = r.obj.id → row = r) :
    r ∈ upsertManyTP t recs (some T2) ∧
      ∀ row ∈ upsertManyTP t recs (some T2), row.obj.id = r.obj.id → row = r := by
  induction recs generalizing t with
  | nil => exact ⟨hr, hu⟩
  | cons g rest ih =>
    obtain ⟨h1, h2⟩ := upsertRow_stale_keeps g T2 t r T1 hr hts hlt hu
    exact ih _ h1 h2

theorem upsertManyTP_mem_cases (t : List Row) (recs : List Obj) (ts : Option Nat) (w : Row)
    (h : w ∈ upsertManyTP t recs ts) : w ∈ t ∨ w.syncTs = ts := by
  induction recs generalizing t with
  | nil => exact Or.inl h
  | cons g rest ih =>
    rcases ih _ h with h1 | h1
    · rcases upsertRow_mem_cases g ts t w h1 with h2 | h2
      · exact Or.inl h2
      · exact Or.inr (by rw [h2])
    · exact Or.inr h1

theorem upsertRow_accept (g : Obj) (T2 : Nat) (t : List Row)
    (h : ∀ row ∈ t, row.obj.id = g.id → staleGuard row (some T2) = false) :
    ∃ row ∈ upsertRow g (some T2) t, row.obj.id = g.id ∧ row.syncTs = some T2 := by
  induction t with
  | nil => exact ⟨⟨g, some T2⟩, by simp [upsertRow], rfl, rfl⟩
  | cons row rest ih =>
    rw [upsertRow]
    by_cases hid : row.obj.id = g.id
    · simp only [hid, if_true, h row (List.mem_cons_self _ _) hid, if_false]
      exact ⟨⟨g, some T2⟩, List.mem_cons_self _ _, rfl, rfl⟩
    · simp only [hid, if_false]
      obtain ⟨w, hw, hwp⟩ := ih (by
        intro v hv hvi
        exact h v (List.mem_cons_of_mem _ hv) hvi)
      exact ⟨w, List.mem_cons_of_mem _ hw, hwp⟩

theorem upsertRow_ts_preserved (rec : Obj) (T2 : Nat) (t : List Row) (i : String)
    (h : ∃ row ∈ t, row.obj.id = i ∧ row.syncTs = some T2) :
    ∃ row ∈ upsertRow rec (some T2) t, row.obj.id = i ∧ row.syncTs = some T2 := by
  induction t with
  | nil =>
    obtain ⟨w, hw, _⟩ := h
    exact absurd hw (List.not_mem_nil w)
  | cons row rest ih =>
    obtain ⟨w, hw, hwi, hwt⟩ := h
    rw [upsertRow]
    by_cases hid : row.obj.id = rec.id
    · simp only [hid, if_true]
      by_cases hg : staleGuard row (some T2)
      · exact ⟨w, by simp [hg, hw], hwi, hwt⟩
      · simp only [hg, if_false]
        rcases List.mem_cons.mp hw with h1 | h1
        · subst h1
          exact ⟨⟨rec, some T2⟩, List.mem_cons_self _ _, by rw [← hwi]; exact hid.symm, rfl⟩
        · exact ⟨w, List.mem_cons_of_mem _ h1, hwi, hwt⟩
    · simp only [hid, if_false]
      rcases List.mem_cons.mp hw with h1 | h1
      · subst h1
        exact ⟨w, List.mem_cons_self _ _, hwi, hwt⟩
      · obtain ⟨v, hv, hvp⟩ := ih ⟨w, h1, hwi, hwt⟩
        exact ⟨v, List.mem_cons_of_mem _ hv, hvp⟩

theorem upsertManyTP_ts_preserved (t : List Row) (recs : List Obj) (T2 : Nat) (i : String)
    (h : ∃ row ∈ t, row.obj.id = i ∧ row.syncTs = some T2) :
    ∃ row ∈ upsertManyTP t recs (some T2), row.obj.id = i ∧ row.syncTs = some T2 := by
  induction recs generalizing t with
  | nil => exact h
  | cons g rest ih => exact ih _ (upsertRow_ts_preserved g T2 t i h)

/-- C1: a row stored for entity E with sync timestamp T1 is left exactly
as it was by any guarded upsert batch carrying a strictly older timestamp
T2 < T1 (first two conjuncts), while the guard acts per row and not batch
wide: a record of the same batch whose key has no stored row is still
written, with the supplied timestamp (third conjunct).  Every store write
of the engine (webhook or backfill path) goes through upsertManyTP, the
timestamp-guarded upsert this theorem is about. -/
theorem C1_timestamp_guard
    (t : List Row) (recs : List Obj) (r : Row) (T1 T2 : Nat)
    (hr : r ∈ t) (hts : r.syncTs = some T1) (hlt : T2 < T1)
    (hu : ∀ row ∈ t, row.obj.id = r.obj.id → row = r) :
    r ∈ upsertManyTP t recs (some T2) ∧
    (∀ row ∈ upsertManyTP t recs (some T2), row.obj.id = r.obj.id → row = r) ∧
    (∀ g ∈ recs, (∀ row ∈ t, row.obj.id ≠ g.id) →
      ∃ row ∈ upsertManyTP t recs (some T2), row.obj.id = g.id ∧ row.syncTs = some T2) := by
  obtain ⟨h1, h2⟩ := upsertManyTP_stale_keeps t recs r T1 T2 hr hts hlt hu
  refine ⟨h1, h2, ?_⟩
  intro g hg hfresh
  obtain ⟨pre, post, hsplit⟩ := List.append_of_mem hg
  subst hsplit
  have hfold : upsertManyTP t (pre ++ g :: post) (some T2) =
      upsertManyTP (upsertRow g (some T2) (upsertManyTP t pre (some T2))) post (some T2) := by
    rw [upsertManyTP, List.foldl_append]
    rfl
  rw [hfold]
  apply upsertManyTP_ts_preserved
  apply upsertRow_accept
  intro row hrow hrowid
  rcases upsertManyTP_mem_cases t pre (some T2) row hrow with hc | hc
  · exact absurd hrowid (hfresh row hc)
  · simp [staleGuard, hc]

/-- Witness for C1 at a concrete store: entity e1 stored at timestamp 5,
a batch at timestamp 3 carrying a conflicting record for e1 and a fresh
record g1. -/
theorem C1_timestamp_guard_witness :
    (⟨{ id := "e1", extra := "v1" }, some 5⟩ : Row) ∈
        upsertManyTP [⟨{ id := "e1", extra := "v1" }, some 5⟩]
          [{ id := "e1", extra := "v2" }, { id := "g1" }] (some 3) ∧
    (∀ row ∈ upsertManyTP [(⟨{ id := "e1", extra := "v1" }, some 5⟩ : Row)]
          [{ id := "e1", extra := "v2" }, { id := "g1" }] (some 3),
        row.obj.id = (⟨{ id := "e1", extra := "v1" }, some 5⟩ : Row).obj.id →
          row = ⟨{ id := "e1", extra := "v1" }, some 5⟩) ∧
    (∀ g ∈ [({ id := "e1", extra := "v2" } : Obj), { id := "g1" }],
        (∀ row ∈ [(⟨{ id := "e1", extra := "v1" }, some 5⟩ : Row)], row.obj.id ≠ g.id) →
          ∃ row ∈ upsertManyTP [(⟨{ id := "e1", extra := "v1" }, some 5⟩ : Row)]
              [{ id := "e1", extra := "v2" }, { id := "g1" }] (some 3),
            row.obj.id = g.id ∧ row.syncTs = some 3) :=
  C1_timestamp_guard _ _ _ 5 3 (by decide) (by decide) (by decide) (by decide)

/-- C6: an event whose type has no handler branch makes process_event
raise the unhandled-webhook exception; no state is produced, so no store
write happens. -/
theorem C6_unknown_event_fatal (cfg : Config) (api : Api) (db : DB) (ev : Event)
    (h : ev.type ∉ handledEventTypes) :
    processEvent cfg api db ev = Except.error PyErr.unhandledWebhook := by
  simp only [handledEventTypes, List.mem_append, List.mem_singleton, List.mem_cons,
    List.not_mem_nil, or_false, not_or, and_assoc] at h
  obtain ⟨hc, hcd, hcs, hcu, hsub, htx, htxd, hin, hpcu, hpd, hprcu, hprd, hplcu,
    hpld, hsi, hss, hpm, hdi, hpi, hcn, hefw, hre, hrv, hents, hip⟩ := h
  rw [processEvent]
  simp [hc, hcd, hcs, hcu, hsub, htx, htxd, hin, hpcu, hpd, hprcu, hprd, hplcu,
    hpld, hsi, hss, hpm, hdi, hpi, hcn, hefw, hre, hrv, hents, hip]

/-- Witness for C6: a concrete event of an unhandled type. -/
theorem C6_unknown_event_fatal_witness :
    processEvent {} { retrieve := fun _ i => Except.ok { id := i }, listAll := fun _ _ => [], now := 7 }
        {} { type := "coupon.created", obj := { id := "co_1" } } =
      Except.error PyErr.unhandledWebhook :=
  C6_unknown_event_fatal _ _ _ _ (by decide)

/-- C7: a payload already in its terminal state is used verbatim with no
refetch, whatever the revalidation policy says (first conjunct); a
refetch reaches the result only when the payload carries an id, is not
terminal, and its object type is listed by the revalidation policy, and
then the result is the retrieved object (second conjunct). -/
theorem C7_terminal_trusts_payload (cfg : Config) (entity : Obj)
    (fetchFn : String → M Obj) (p : Obj → Bool) :
    (p entity = true →
      fetchOrUseWebhookData cfg entity fetchFn (some p) = Except.ok (entity, false)) ∧
    (∀ (fin : Option (Obj → Bool)) (e2 : Obj),
      fetchOrUseWebhookData cfg entity fetchFn fin = Except.ok (e2, true) →
      entity.id ≠ "" ∧ (∀ q, fin = some q → q entity = false) ∧
        shouldRefetchEntity cfg entity = true ∧ fetchFn entity.id = Except.ok e2) := by
  constructor
  · intro hp
    unfold fetchOrUseWebhookData
    by_cases hid : entity.id = ""
    · simp [hid]
    · simp [hid, hp]
  · intro fin e2 h
    by_cases hid : entity.id = ""
    · unfold fetchOrUseWebhookData at h
      simp [hid] at h
    · cases fin with
      | none =>
        by_cases hsr : shouldRefetchEntity cfg entity
        · cases hfe : fetchFn entity.id with
          | error e =>
            unfold fetchOrUseWebhookData at h
            simp [hid, hsr, hfe, Except.map] at h
          | ok o =>
            unfold fetchOrUseWebhookData at h
            simp [hid, hsr, hfe, Except.map] at h
            refine ⟨hid, ?_, hsr, ?_⟩
            · intro q2 hq2
              cases hq2
            · rw [h]
        · unfold fetchOrUseWebhookData at h
          simp [hid, hsr] at h
      | some q =>
        by_cases hq : q entity = true
        · unfold fetchOrUseWebhookData at h
          simp [hid, hq] at h
        · by_cases hsr : shouldRefetchEntity cfg entity
          · cases hfe : fetchFn entity.id with
            | error e =>
              unfold fetchOrUseWebhookData at h
              simp [hid, hq, hsr, hfe, Except.map] at h
            | ok o =>
              unfold fetchOrUseWebhookData at h
              simp [hid, hq, hsr, hfe, Except.map] at h
              refine ⟨hid, ?_, hsr, ?_⟩
              · intro q2 hq2
                cases hq2
                simpa using hq
              · rw [h]
          · unfold fetchOrUseWebhookData at h
            simp [hid, hq, hsr] at h

/-- Witness for C7: a succeeded charge with the charge kind listed for
revalidation is still used verbatim, and a pending charge of that
configuration reaches the result through a refetch. -/
theorem C7_terminal_trusts_payload_witness :
    (fetchOrUseWebhookData { revalidate_objects_via_stripe_api := ["charge"] }
        { id := "ch_1", object := "charge", status := some "succeeded" }
        (fun i => Except.ok { id := i, object := "charge" }) (some chargeFinal) =
      Except.ok ({ id := "ch_1", object := "charge", status := some "succeeded" }, false)) ∧
    ({ id := "ch_2", object := "charge", status := some "pending" : Obj}.id ≠ "" ∧
      (∀ q, (some chargeFinal : Option (Obj → Bool)) = some q →
        q { id := "ch_2", object := "charge", status := some "pending" } = false) ∧
      shouldRefetchEntity { revalidate_objects_via_stripe_api := ["charge"] }
        { id := "ch_2", object := "charge", status := some "pending" } = true ∧
      (fun i => (Except.ok { id := i, object := "charge" } : M Obj)) "ch_2" =
        Except.ok { id := "ch_2", object := "charge" }) := by
  constructor
  · exact (C7_terminal_trusts_payload _ _ _ chargeFinal).1 (by decide)
  · exact (C7_terminal_trusts_payload
      { revalidate_objects_via_stripe_api := ["charge"] }
      { id := "ch_2", object := "charge", status := some "pending" }
      (fun i => Except.ok { id := i, object := "charge" }) chargeFinal).2
      (some chargeFinal) { id := "ch_2", object := "charge" } (by decide)

/-- C8: the sync timestamp of a processed event is the wall-clock instant
when the entity was refetched and the origination time of the event when
it was not; the timestamp is the one handed to the resulting write, shown
on the charge branch of the router for a terminal (not refetched)
payload. -/
theorem C8_sync_timestamp (cfg : Config) (api : Api) (db : DB) (ev : Event) :
    (∀ e : Event, getSyncTimestamp e true api = api.now) ∧
    (∀ e : Event, getSyncTimestamp e false api = e.created) ∧
    (ev.type ∈ chargeEventTypes → chargeFinal ev.obj = true → ev.obj.id ≠ "" →
      processEvent cfg api db ev =
        upsertCharges cfg api db [ev.obj] (some false) (some ev.created)) := by
  refine ⟨fun e => rfl, fun e => rfl, ?_⟩
  intro hty hterm hid
  rw [processEvent]
  simp only [hty, if_true]
  unfold fetchOrUseWebhookData
  simp [hid, hterm, getSyncTimestamp, Bind.bind, Except.bind]

/-- Witness for C8: a concrete succeeded-charge event is written with the
origination timestamp of the event. -/
theorem C8_sync_timestamp_witness :
    (∀ e : Event, getSyncTimestamp e true
      { retrieve := fun _ i => Except.ok { id := i }, listAll := fun _ _ => [], now := 7 } = 7) ∧
    (∀ e : Event, getSyncTimestamp e false
      { retrieve := fun _ i => Except.ok { id := i }, listAll := fun _ _ => [], now := 7 } = e.created) ∧
    processEvent {} { retrieve := fun _ i => Except.ok { id := i }, listAll := fun _ _ => [], now := 7 }
        {} { type := "charge.succeeded", created := 5,
             obj := { id := "ch_1", object := "charge", status := some "succeeded" } } =
      upsertCharges {} { retrieve := fun _ i => Except.ok { id := i }, listAll := fun _ _ => [], now := 7 }
        {} [{ id := "ch_1", object := "charge", status := some "succeeded" }] (some false) (some 5) := by
  refine ⟨?_, ?_, ?_⟩
  · exact (C8_sync_timestamp {} _ {} { type := "x", obj := { id := "" } }).1
  · exact (C8_sync_timestamp {} _ {} { type := "x", obj := { id := "" } }).2.1
  · exact (C8_sync_timestamp {} _ {}
      { type := "charge.succeeded", created := 5,
        obj := { id := "ch_1", object := "charge", status := some "succeeded" } }).2.2
      (by decide) (by decide) (by decide)

/-- C10: an id whose start matches none of the recognised conventions
makes sync_single_entity do nothing at all — the state is returned
unchanged, nothing is fetched (the outcome is the same under every source
API), and nothing is raised — and a cus_ id whose retrieved customer is
deleted is not upserted either. -/
theorem C10_unknown_id_silent (cfg : Config) (api : Api) (db : DB) (stripeId : String) :
    ((∀ p ∈ knownIdStarts, strStartsWith stripeId p = false) →
      ∀ (cfg2 : Config) (api2 : Api) (db2 : DB),
        syncSingleEntity cfg2 api2 db2 stripeId = Except.ok db2) ∧
    (∀ c : Obj, strStartsWith stripeId "cus_" = true →
      api.retrieve "customer" stripeId = Except.ok c → c.deleted = true →
      syncSingleEntity cfg api db stripeId = Except.ok db) := by
  constructor
  · intro h cfg2 api2 db2
    have h1 := h "cus_" (by decide)
    have h2 := h "in_" (by decide)
    have h3 := h "price_" (by decide)
    have h4 := h "prod_" (by decide)
    have h5 := h "sub_" (by decide)
    have h6 := h "seti_" (by decide)
    have h7 := h "pm_" (by decide)
    have h8 := h "dp_" (by decide)
    have h9 := h "du_" (by decide)
    have h10 := h "ch_" (by decide)
    have h11 := h "pi_" (by decide)
    have h12 := h "txi_" (by decide)
    have h13 := h "cn_" (by decide)
    have h14 := h "issfr_" (by decide)
    have h15 := h "prv_" (by decide)
    have h16 := h "re_" (by decide)
    have h17 := h "inpay_" (by decide)
    have h18 := h "feat_" (by decide)
    have h19 := h "cs_" (by decide)
    rw [syncSingleEntity]
    simp [h1, h2, h3, h4, h5, h6, h7, h8, h9, h10, h11, h12, h13, h14, h15,
      h16, h17, h18, h19, pure, Except.pure]
  · intro c hcus hret hdel
    rw [syncSingleEntity]
    simp [hcus, hret, hdel, Bind.bind, Except.bind, pure, Except.pure]

/-- Witness for C10: a concrete unrecognised id, and a concrete cus_ id
whose retrieval yields a deleted customer. -/
theorem C10_unknown_id_silent_witness :
    (syncSingleEntity {} { retrieve := fun _ i => Except.ok { id := i }, listAll := fun _ _ => [], now := 7 }
        { products := [⟨{ id := "p1" }, some 1⟩] } "acct_123" =
      Except.ok { products := [⟨{ id := "p1" }, some 1⟩] }) ∧
    (syncSingleEntity {}
        { retrieve := fun _ i => Except.ok { id := i, deleted := true }, listAll := fun _ _ => [], now := 7 }
        { products := [⟨{ id := "p1" }, some 1⟩] } "cus_9" =
      Except.ok { products := [⟨{ id := "p1" }, some 1⟩] }) := by
  constructor
  · exact (C10_unknown_id_silent {} { retrieve := fun _ i => Except.ok { id := i }, listAll := fun _ _ => [], now := 7 }
      { products := [⟨{ id := "p1" }, some 1⟩] } "acct_123").1 (by decide) _ _ _
  · exact (C10_unknown_id_silent {}
      { retrieve := fun _ i => Except.ok { id := i, deleted := true }, listAll := fun _ _ => [], now := 7 }
      { products := [⟨{ id := "p1" }, some 1⟩] } "cus_9").2
      { id := "cus_9", deleted := true } (by decide) rfl rfl

theorem chunkArray_nil (n : Nat) : chunkArray ([] : List α) n = [] := by
  cases n <;> simp [chunkArray]

theorem chunkArray_eq_nil_iff (l : List α) (n : Nat) :
    chunkArray l (n + 1) = [] ↔ l = [] := by
  cases l with
  | nil => simp [chunkArray_nil]
  | cons a t => rw [chunkArray]; simp

theorem chunkArray_cons_of_len (c rest : List α) (n : Nat) (hc : c.length = n + 1) :
    chunkArray (c ++ rest) (n + 1) = c :: chunkArray rest (n + 1) := by
  cases c with
  | nil => simp at hc
  | cons a l =>
    rw [List.cons_append, chunkArray]
    have htake : (a :: (l ++ rest)).take (n + 1) = a :: l := by
      rw [← hc, ← List.cons_append, List.take_left]
    have hdrop : (a :: (l ++ rest)).drop (n + 1) = rest := by
      rw [← hc, ← List.cons_append, List.drop_left]
    rw [htake, hdrop]

theorem chunkArray_small (l : List α) (n : Nat) (hne : l ≠ []) (hle : l.length ≤ n + 1) :
    chunkArray l (n + 1) = [l] := by
  cases l with
  | nil => exact absurd rfl hne
  | cons a t =>
    rw [chunkArray]
    have htake : (a :: t).take (n + 1) = a :: t := List.take_of_length_le hle
    have hdrop : (a :: t).drop (n + 1) = [] := List.drop_eq_nil_of_le hle
    rw [htake, hdrop, chunkArray_nil]

theorem fetchAndUpsertGo_eq (n : Nat) (items : List α) :
    ∀ (chunk : List α) (calls : List (List α)) (synced : Nat),
      chunk.length < n + 1 →
      fetchAndUpsertGo (n + 1) items chunk calls synced =
        (calls ++ chunkArray (chunk ++ items) (n + 1), synced + items.length) := by
  induction items with
  | nil =>
    intro chunk calls synced hlen
    rw [fetchAndUpsertGo]
    by_cases hc : chunk.length > 0
    · have hne : chunk ≠ [] := by
        cases chunk
        · simp at hc
        · simp
      rw [List.append_nil, chunkArray_small chunk n hne (le_of_lt hlen)]
      simp [hc]
    · have hz : chunk = [] := by
        cases chunk
        · rfl
        · simp at hc
      subst hz
      simp [chunkArray_nil]
  | cons x rest ih =>
    intro chunk calls synced hlen
    rw [fetchAndUpsertGo]
    by_cases hge : (chunk ++ [x]).length ≥ n + 1
    · have hlen1 : (chunk ++ [x]).length = n + 1 := by
        simp only [List.length_append, List.length_cons, List.length_nil] at hge ⊢
        omega
      simp only [hge, if_true]
      rw [ih [] (calls ++ [chunk ++ [x]]) (synced + 1) (by simp)]
      have hsplit : chunk ++ x :: rest = (chunk ++ [x]) ++ rest := by
        simp
      rw [hsplit, chunkArray_cons_of_len (chunk ++ [x]) rest n hlen1]
      simp only [List.nil_append, List.append_assoc, List.singleton_append,
        List.length_cons, Prod.mk.injEq]
      exact ⟨trivial, by omega⟩
    · have hlt : (chunk ++ [x]).length < n + 1 := by omega
      simp only [hge, if_false]
      rw [ih (chunk ++ [x]) calls (synced + 1) hlt]
      have hsplit : (chunk ++ [x]) ++ rest = chunk ++ x :: rest := by
        simp
      rw [hsplit]
      simp only [List.length_cons, Prod.mk.injEq]
      exact ⟨trivial, by omega⟩

theorem chunkArray_join (n : Nat) (l : List α) : (chunkArray l (n + 1)).flatten = l := by
  have H : ∀ m, ∀ l2 : List α, l2.length = m → (chunkArray l2 (n + 1)).flatten = l2 := by
    intro m
    induction m using Nat.strong_induction_on with
    | _ m ihm =>
      intro l2 hl
      cases l2 with
      | nil => simp [chunkArray_nil]
      | cons a t =>
        rw [chunkArray, List.flatten_cons]
        rw [ihm ((a :: t).drop (n + 1)).length (by
          subst hl
          simp only [List.length_drop, List.length_cons]
          omega) _ rfl]
        exact List.take_append_drop _ _
  exact H l.length l rfl

theorem chunkArray_length (n : Nat) (l : List α) :
    (chunkArray l (n + 1)).length = (l.length + n) / (n + 1) := by
  have H : ∀ m, ∀ l2 : List α, l2.length = m →
      (chunkArray l2 (n + 1)).length = (l2.length + n) / (n + 1) := by
    intro m
    induction m using Nat.strong_induction_on with
    | _ m ihm =>
      intro l2 hl
      cases l2 with
      | nil =>
        simp [chunkArray_nil, Nat.div_eq_of_lt (by omega : n < n + 1)]
      | cons a t =>
        rw [chunkArray, List.length_cons]
        rw [ihm ((a :: t).drop (n + 1)).length (by
          subst hl
          simp only [List.length_drop, List.length_cons]
          omega) _ rfl]
        have hb : 1 ≤ (a :: t).length := by simp
        set b := (a :: t).length with hbdef
        have h1 : ((a :: t).drop (n + 1)).length = b - (n + 1) := by
          simp [hbdef]
        rw [h1]
        have h2 : b + n = (b - 1) + (n + 1) := by omega
        rw [h2, Nat.add_div_right _ (by omega : 0 < n + 1)]
        have h3 : (b - (n + 1) + n) / (n + 1) = (b - 1) / (n + 1) := by
          rcases Nat.le_total b (n + 1) with hc | hc
          · have e1 : b - (n + 1) = 0 := by omega
            rw [e1, Nat.zero_add, Nat.div_eq_of_lt (by omega : n < n + 1),
              Nat.div_eq_of_lt (by omega : b - 1 < n + 1)]
          · have e1 : b - (n + 1) + n = b - 1 := by omega
            rw [e1]
        omega
  exact H l.length l rfl

theorem chunkArray_mem_len (n : Nat) (l : List α) :
    ∀ c ∈ chunkArray l (n + 1), c.length ≤ n + 1 ∧ c ≠ [] := by
  have H : ∀ m, ∀ l2 : List α, l2.length = m →
      ∀ c ∈ chunkArray l2 (n + 1), c.length ≤ n + 1 ∧ c ≠ [] := by
    intro m
    induction m using Nat.strong_induction_on with
    | _ m ihm =>
      intro l2 hl c hc
      cases l2 with
      | nil => rw [chunkArray_nil] at hc; exact absurd hc (List.not_mem_nil c)
      | cons a t =>
        rw [chunkArray] at hc
        rcases List.mem_cons.mp hc with h1 | h1
        · subst h1
          constructor
          · simp [List.length_take]
          · simp [List.take_succ_cons]
        · exact ihm ((a :: t).drop (n + 1)).length (by
            subst hl
            simp only [List.length_drop, List.length_cons]
            omega) _ rfl c h1
  exact H l.length l rfl

theorem chunkArray_dropLast_len (n : Nat) (l : List α) :
    ∀ c ∈ (chunkArray l (n + 1)).dropLast, c.length = n + 1 := by
  have H : ∀ m, ∀ l2 : List α, l2.length = m →
      ∀ c ∈ (chunkArray l2 (n + 1)).dropLast, c.length = n + 1 := by
    intro m
    induction m using Nat.strong_induction_on with
    | _ m ihm =>
      intro l2 hl c hc
      cases l2 with
      | nil => rw [chunkArray_nil] at hc; exact absurd hc (List.not_mem_nil c)
      | cons a t =>
        rw [chunkArray] at hc
        by_cases hrest : chunkArray ((a :: t).drop (n + 1)) (n + 1) = []
        · rw [hrest] at hc
          simp at hc
        · rw [List.dropLast_cons_of_ne_nil hrest] at hc
          rcases List.mem_cons.mp hc with h1 | h1
          · subst h1
            have hdrop_ne : (a :: t).drop (n + 1) ≠ [] := by
              intro hz
              rw [hz, chunkArray_nil] at hrest
              exact hrest rfl
            have hlong : n + 1 < (a :: t).length := by
              by_contra hle
              push_neg at hle
              exact hdrop_ne (List.drop_eq_nil_of_le hle)
            rw [List.length_take, List.length_cons]
            rw [List.length_cons] at hlong
            exact Nat.min_eq_left (by omega)
          · exact ihm ((a :: t).drop (n + 1)).length (by
              subst hl
              simp only [List.length_drop, List.length_cons]
              omega) _ rfl c h1
  exact H l.length l rfl

set_option maxRecDepth 10000 in
/-- C9: over an enumeration of N records the backfill loop issues exactly
the batches of chunkArray with size 250 — ceil(N/250) upsert calls, every
batch but possibly the last of exactly 250 records, none empty, their
concatenation the enumeration in order — and reports N as synced; at
N = 551 the three calls carry 250, 250 and 51 records. -/
theorem C9_backfill_chunking (items : List α) :
    (fetchAndUpsert items).2 = items.length ∧
    (fetchAndUpsert items).1 = chunkArray items 250 ∧
    (fetchAndUpsert items).1.length = (items.length + 249) / 250 ∧
    (∀ c ∈ (fetchAndUpsert items).1.dropLast, c.length = 250) ∧
    (∀ c ∈ (fetchAndUpsert items).1, c.length ≤ 250 ∧ c ≠ []) ∧
    (fetchAndUpsert items).1.flatten = items ∧
    (fetchAndUpsert (List.replicate 551 (0 : Nat))).1.map List.length = [250, 250, 51] ∧
    (fetchAndUpsert (List.replicate 551 (0 : Nat))).2 = 551 := by
  have h250 : (250 : Nat) = 249 + 1 := rfl
  have key : fetchAndUpsert items = (chunkArray items 250, items.length) := by
    rw [fetchAndUpsert, h250]
    have h := fetchAndUpsertGo_eq 249 items [] [] 0 (by simp)
    simpa using h
  refine ⟨by rw [key], by rw [key], ?_, ?_, ?_, ?_, ?_, ?_⟩
  · rw [key, h250]
    exact chunkArray_length 249 items
  · rw [key, h250]
    exact chunkArray_dropLast_len 249 items
  · rw [key, h250]
    exact chunkArray_mem_len 249 items
  · rw [key, h250]
    exact chunkArray_join 249 items
  · decide
  · decide

/-- Witness for C9 at the concrete enumeration of 551 records. -/
theorem C9_backfill_chunking_witness :
    (fetchAndUpsert (List.replicate 551 (0 : Nat))).2 = 551 ∧
    (fetchAndUpsert (List.replicate 551 (0 : Nat))).1.map List.length = [250, 250, 51] :=
  ⟨(C9_backfill_chunking (List.replicate 551 (0 : Nat))).2.2.2.2.2.2.2,
   (C9_backfill_chunking (List.replicate 551 (0 : Nat))).2.2.2.2.2.2.1⟩

/-- C5: a product create-or-update event whose refetch fails with the
resource-missing invalid-request error ends in the product row being hard
deleted by the id named in the event payload, with process_event
returning normally; a refetch failure with any other error still
propagates to the caller. -/
theorem C5_product_404 (cfg : Config) (api : Api) (db : DB) (ev : Event)
    (hty : ev.type ∈ productCUEventTypes)
    (hid : ev.obj.id ≠ "")
    (hsr : shouldRefetchEntity cfg ev.obj = true) :
    (api.retrieve "product" ev.obj.id = Except.error (PyErr.invalidRequest "resource_missing") →
      processEvent cfg api db ev = Except.ok (deleteProduct db ev.obj.id).1) ∧
    (∀ e : PyErr, api.retrieve "product" ev.obj.id = Except.error e →
      e ≠ PyErr.invalidRequest "resource_missing" →
      processEvent cfg api db ev = Except.error e) := by
  have hbranch : ∀ r : M DB,
      (api.retrieve "product" ev.obj.id = Except.error (PyErr.invalidRequest "resource_missing") →
        handleCatalogCU cfg api db ev "product"
          (fun d entity refetched =>
            pure (upsertProducts d [entity] (some (getSyncTimestamp ev refetched api))))
          (fun d i => (deleteProduct d i).1) = Except.ok (deleteProduct db ev.obj.id).1) ∧
      (∀ e : PyErr, api.retrieve "product" ev.obj.id = Except.error e →
        e ≠ PyErr.invalidRequest "resource_missing" →
        handleCatalogCU cfg api db ev "product"
          (fun d entity refetched =>
            pure (upsertProducts d [entity] (some (getSyncTimestamp ev refetched api))))
          (fun d i => (deleteProduct d i).1) = Except.error e) := by
    intro _
    constructor
    · intro hret
      rw [handleCatalogCU]
      unfold fetchOrUseWebhookData
      simp [hid, hsr, hret, Except.map, Bind.bind, Except.bind]
    · intro e hret hne
      rw [handleCatalogCU]
      unfold fetchOrUseWebhookData
      simp only [hid, if_false, hsr, if_true, hret, Except.map, Bind.bind, Except.bind]
      cases e with
      | invalidRequest code =>
        have hcode : code ≠ "resource_missing" := by
          intro hc
          exact hne (by rw [hc])
        simp [hcode]
      | apiOther => simp
      | keyErr => simp
      | unhandledWebhook => simp
  have hb := hbranch (Except.ok db)
  simp only [productCUEventTypes, List.mem_cons, List.mem_singleton,
    List.not_mem_nil, or_false] at hty
  rcases hty with h1 | h1
  · constructor
    · intro hret
      rw [processEvent]
      simp only [h1]
      norm_num [chargeEventTypes, checkoutSessionEventTypes, customerEventTypes,
        subscriptionEventTypes, taxIdEventTypes, invoiceEventTypes, productCUEventTypes]
      exact hb.1 hret
    · intro e hret hne
      rw [processEvent]
      simp only [h1]
      norm_num [chargeEventTypes, checkoutSessionEventTypes, customerEventTypes,
        subscriptionEventTypes, taxIdEventTypes, invoiceEventTypes, productCUEventTypes]
      exact hb.2 e hret hne
  · constructor
    · intro hret
      rw [processEvent]
      simp only [h1]
      norm_num [chargeEventTypes, checkoutSessionEventTypes, customerEventTypes,
        subscriptionEventTypes, taxIdEventTypes, invoiceEventTypes, productCUEventTypes]
      exact hb.1 hret
    · intro e hret hne
      rw [processEvent]
      simp only [h1]
      norm_num [chargeEventTypes, checkoutSessionEventTypes, customerEventTypes,
        subscriptionEventTypes, taxIdEventTypes, invoiceEventTypes, productCUEventTypes]
      exact hb.2 e hret hne

/-- Witness for C5: a concrete product.updated event whose refetch yields
resource-missing is converted to a hard delete, and one whose refetch
fails otherwise propagates the error. -/
theorem C5_product_404_witness :
    (processEvent { revalidate_objects_via_stripe_api := ["product"] }
        { retrieve := fun _ _ => Except.error (PyErr.invalidRequest "resource_missing"),
          listAll := fun _ _ => [], now := 7 }
        { products := [⟨{ id := "prod_1" }, some 1⟩] }
        { type := "product.updated", obj := { id := "prod_1", object := "product" } } =
      Except.ok (deleteProduct { products := [⟨{ id := "prod_1" }, some 1⟩] } "prod_1").1) ∧
    (processEvent { revalidate_objects_via_stripe_api := ["product"] }
        { retrieve := fun _ _ => Except.error PyErr.apiOther,
          listAll := fun _ _ => [], now := 7 }
        { products := [⟨{ id := "prod_1" }, some 1⟩] }
        { type := "product.updated", obj := { id := "prod_1", object := "product" } } =
      Except.error PyErr.apiOther) := by
  constructor
  · exact (C5_product_404 { revalidate_objects_via_stripe_api := ["product"] }
      { retrieve := fun _ _ => Except.error (PyErr.invalidRequest "resource_missing"),
        listAll := fun _ _ => [], now := 7 }
      { products := [⟨{ id := "prod_1" }, some 1⟩] }
      { type := "product.updated", obj := { id := "prod_1", object := "product" } }
      (by decide) (by decide) (by decide)).1 rfl
  · exact (C5_product_404 { revalidate_objects_via_stripe_api := ["product"] }
      { retrieve := fun _ _ => Except.error PyErr.apiOther,
        listAll := fun _ _ => [], now := 7 }
      { products := [⟨{ id := "prod_1" }, some 1⟩] }
      { type := "product.updated", obj := { id := "prod_1", object := "product" } }
      (by decide) (by decide) (by decide)).2 PyErr.apiOther rfl (by decide)

theorem upsertRow_mem_of_ne (rec : Obj) (ts : Option Nat) (t : List Row) (row : Row)
    (hmem : row ∈ t) (hne : row.obj.id ≠ rec.id) : row ∈ upsertRow rec ts t := by
  induction t with
  | nil => exact absurd hmem (List.not_mem_nil row)
  | cons head rest ih =>
    rw [upsertRow]
    by_cases hid : head.obj.id = rec.id
    · simp only [hid, if_true]
      rcases List.mem_cons.mp hmem with h1 | h1
      · exfalso
        apply hne
        rw [h1, hid]
      · by_cases hg : staleGuard head ts
        · simp only [hg, if_true]
          exact List.mem_cons_of_mem _ h1
        · simp only [hg, if_false]
          exact List.mem_cons_of_mem _ h1
    · simp only [hid, if_false]
      rcases List.mem_cons.mp hmem with h1 | h1
      · exact h1 ▸ List.mem_cons_self _ _
      · exact List.mem_cons_of_mem _ (ih h1)

/-- C3: a subscription P stored with live items A, B and C, updated with a
payload carrying items A and C, ends with every A row and every C row
live, every B row flagged deleted (and a B row still present), and every
row id that was stored before still stored: reconciliation only flips the
deleted flag of the absent items and removes nothing. -/
theorem C3_subscription_item_diff
    (cfg : Config) (api : Api) (db : DB) (P : Obj) (A B C : String)
    (iA iC : Item) (ts : Nat)
    (hP : P.items = some ⟨[iA, iC], false⟩)
    (hiA : iA.id = A) (hiC : iC.id = C)
    (hiAd : iA.deleted.getD false = false) (hiCd : iC.deleted.getD false = false)
    (hAB : A ≠ B) (hBC : B ≠ C) (hAC : A ≠ C)
    (hnodup : (db.subscription_items.map (fun r => r.obj.id)).Nodup)
    (hmem : ∀ x ∈ [A, B, C], ∃ row ∈ db.subscription_items,
      row.obj.id = x ∧ row.obj.subscription = some P.id ∧ row.obj.deleted = false) :
    ∃ db4, upsertSubscriptions cfg api db [P] (some false) (some ts) = Except.ok db4 ∧
      (∀ row ∈ db4.subscription_items, row.obj.id = A → row.obj.deleted = false) ∧
      (∀ row ∈ db4.subscription_items, row.obj.id = C → row.obj.deleted = false) ∧
      (∀ row ∈ db4.subscription_items, row.obj.id = B → row.obj.deleted = true) ∧
      (∃ row ∈ db4.subscription_items, row.obj.id = B) ∧
      (∀ i, hasId db.subscription_items i → hasId db4.subscription_items i) := by
  have hexp : expandEntity cfg api [P] (fun s => s.items)
      (fun s l => { s with items := some l }) "subscription_item" = [P] := by
    rw [expandEntity]
    cases hauto : cfg.auto_expand_lists
    · simp
    · simp [hP]
  have heq : upsertSubscriptions cfg api db [P] (some false) (some ts) =
      Except.ok ((markDeletedSubscriptionItems
        (upsertSubscriptionItems
          { db with subscriptions := upsertManyTP db.subscriptions [P] (some ts) }
          [iA, iC] (some ts))
        P.id [iA.id, iC.id]).1) := by
    rw [upsertSubscriptions]
    simp [resolveBackfill, hexp, subItemsData, hP, Bind.bind, Except.bind, pure, Except.pure]
  set roA := itemToSubItemRow iA with hroA
  set roC := itemToSubItemRow iC with hroC
  set t0 := db.subscription_items with ht0def
  set t1 := upsertRow roC (some ts) (upsertRow roA (some ts) t0) with ht1def
  have ht1 : (upsertSubscriptionItems
      { db with subscriptions := upsertManyTP db.subscriptions [P] (some ts) }
      [iA, iC] (some ts)).subscription_items = t1 := by
    simp [upsertSubscriptionItems, upsertManyTP, ht1def, hroA, hroC, ht0def]
  have hroA_id : roA.id = A := by rw [hroA, itemToSubItemRow, hiA]
  have hroC_id : roC.id = C := by rw [hroC, itemToSubItemRow, hiC]
  have hroA_del : roA.deleted = false := by rw [hroA, itemToSubItemRow]; exact hiAd
  have hroC_del : roC.deleted = false := by rw [hroC, itemToSubItemRow]; exact hiCd
  obtain ⟨rA, hrAmem, hrAid, hrAsub, hrAdel⟩ := hmem A (by simp)
  obtain ⟨rB, hrBmem, hrBid, hrBsub, hrBdel⟩ := hmem B (by simp)
  have hA_live_t1 : ∀ row ∈ t1, row.obj.id = A → row.obj.deleted = false := by
    intro row hrow hid
    rcases upsertRow_mem_cases roC (some ts) _ row hrow with h1 | h1
    · rcases upsertRow_mem_cases roA (some ts) t0 row h1 with h2 | h2
      · have hrr : row = rA :=
          List.inj_on_of_nodup_map hnodup h2 hrAmem (by rw [hid, hrAid])
        rw [hrr]
        exact hrAdel
      · rw [h2]
        exact hroA_del
    · exfalso
      apply hAC
      rw [← hid, h1, hroC_id]
  have hC_live_t1 : ∀ row ∈ t1, row.obj.id = C → row.obj.deleted = false := by
    intro row hrow hid
    rcases upsertRow_mem_cases roC (some ts) _ row hrow with h1 | h1
    · rcases upsertRow_mem_cases roA (some ts) t0 row h1 with h2 | h2
      · obtain ⟨rC, hrCmem, hrCid, hrCsub, hrCdel⟩ := hmem C (by simp)
        have hrr : row = rC :=
          List.inj_on_of_nodup_map hnodup h2 hrCmem (by rw [hid, hrCid])
        rw [hrr]
        exact hrCdel
      · rw [h2]
        exact hroA_del
    · rw [h1]
      exact hroC_del
  have hrB_t1 : rB ∈ t1 := by
    apply upsertRow_mem_of_ne
    · apply upsertRow_mem_of_ne
      · exact hrBmem
      · rw [hrBid, hroA_id]
        exact fun h => hAB h.symm
    · rw [hrBid, hroC_id]
      exact hBC
  have hcur : [iA.id, iC.id] = [A, C] := by rw [hiA, hiC]
  set cur := [A, C] with hcurdef
  set liveRows := t1.filter
    (fun r => r.obj.subscription == some P.id && r.obj.deleted == false) with hlivedef
  set deletedIds := (liveRows.map (fun r => r.obj.id)).filter
    (fun i => !(cur.contains i)) with hdeldef
  have hBdel : B ∈ deletedIds := by
    rw [hdeldef, List.mem_filter]
    constructor
    · rw [List.mem_map]
      refine ⟨rB, ?_, hrBid⟩
      rw [hlivedef, List.mem_filter]
      refine ⟨hrB_t1, ?_⟩
      simp [hrBsub, hrBdel]
    · simp [hcurdef, List.contains, List.elem_iff]
      exact ⟨fun h => hAB h.symm, hBC⟩
  have hAnot : A ∉ deletedIds := by
    rw [hdeldef, List.mem_filter]
    intro ⟨_, hcon⟩
    simp [hcurdef, List.contains, List.elem_iff] at hcon
  have hCnot : C ∉ deletedIds := by
    rw [hdeldef, List.mem_filter]
    intro ⟨_, hcon⟩
    simp [hcurdef, List.contains, List.elem_iff] at hcon
  have hpos : deletedIds.length > 0 := by
    cases hd : deletedIds with
    | nil => rw [hd] at hBdel; exact absurd hBdel (List.not_mem_nil B)
    | cons x xs => simp [hd]
  have hmark : (markDeletedSubscriptionItems
      (upsertSubscriptionItems
        { db with subscriptions := upsertManyTP db.subscriptions [P] (some ts) }
        [iA, iC] (some ts))
      P.id [iA.id, iC.id]).1.subscription_items =
      t1.map (fun r => if deletedIds.contains r.obj.id
        then { r with obj := { r.obj with deleted := true } } else r) := by
    rw [markDeletedSubscriptionItems, hcur]
    simp only [ht1, ← hlivedef, ← hcurdef, ← hdeldef, hpos, if_true]
  refine ⟨_, heq, ?_, ?_, ?_, ?_, ?_⟩
  · intro row hrow hid
    rw [hmark] at hrow
    obtain ⟨r1, hr1, hfr⟩ := List.mem_map.mp hrow
    by_cases hcont : deletedIds.contains r1.obj.id = true
    · exfalso
      rw [if_pos hcont] at hfr
      rw [← hfr] at hid
      simp only [] at hid
      apply hAnot
      rw [← hid]
      exact (List.elem_iff).mp hcont
    · rw [if_neg hcont] at hfr
      rw [← hfr] at hid ⊢
      exact hA_live_t1 r1 hr1 hid
  · intro row hrow hid
    rw [hmark] at hrow
    obtain ⟨r1, hr1, hfr⟩ := List.mem_map.mp hrow
    by_cases hcont : deletedIds.contains r1.obj.id = true
    · exfalso
      rw [if_pos hcont] at hfr
      rw [← hfr] at hid
      simp only [] at hid
      apply hCnot
      rw [← hid]
      exact (List.elem_iff).mp hcont
    · rw [if_neg hcont] at hfr
      rw [← hfr] at hid ⊢
      exact hC_live_t1 r1 hr1 hid
  · intro row hrow hid
    rw [hmark] at hrow
    obtain ⟨r1, hr1, hfr⟩ := List.mem_map.mp hrow
    by_cases hcont : deletedIds.contains r1.obj.id = true
    · rw [if_pos hcont] at hfr
      rw [← hfr]
    · exfalso
      rw [if_neg hcont] at hfr
      rw [← hfr] at hid
      apply hcont
      apply (List.elem_iff).mpr
      rw [hid]
      exact hBdel
  · rw [hmark]
    refine ⟨(fun r => if deletedIds.contains r.obj.id
        then { r with obj := { r.obj with deleted := true } } else r) rB,
      List.mem_map_of_mem _ hrB_t1, ?_⟩
    beta_reduce
    by_cases hcont : deletedIds.contains rB.obj.id = true
    · rw [if_pos hcont]
      exact hrBid
    · rw [if_neg hcont]
      exact hrBid
  · intro i hi
    rw [hmark]
    have hi1 : hasId t1 i := by
      apply upsertRow_keeps
      apply upsertRow_keeps
      exact hi
    obtain ⟨r1, hr1, hr1i⟩ := hi1
    refine ⟨(fun r => if deletedIds.contains r.obj.id
        then { r with obj := { r.obj with deleted := true } } else r) r1,
      List.mem_map_of_mem _ hr1, ?_⟩
    beta_reduce
    by_cases hcont : deletedIds.contains r1.obj.id = true
    · rw [if_pos hcont]
      exact hr1i
    · rw [if_neg hcont]
      exact hr1i

/-- Witness for C3: subscription P stored with live items A, B, C and an
update carrying A and C. -/
theorem C3_subscription_item_diff_witness :
    ∃ db4,
      upsertSubscriptions {}
          { retrieve := fun _ i => Except.ok { id := i }, listAll := fun _ _ => [], now := 7 }
          { subscription_items :=
              [⟨{ id := "A", object := "subscription_item", subscription := some "P" }, some 1⟩,
               ⟨{ id := "B", object := "subscription_item", subscription := some "P" }, some 1⟩,
               ⟨{ id := "C", object := "subscription_item", subscription := some "P" }, some 1⟩] }
          [{ id := "P",
             items := some ⟨[{ id := "A", subscription := some "P" },
                             { id := "C", subscription := some "P" }], false⟩ }]
          (some false) (some 2) = Except.ok db4 ∧
      (∀ row ∈ db4.subscription_items, row.obj.id = "A" → row.obj.deleted = false) ∧
      (∀ row ∈ db4.subscription_items, row.obj.id = "C" → row.obj.deleted = false) ∧
      (∀ row ∈ db4.subscription_items, row.obj.id = "B" → row.obj.deleted = true) ∧
      (∃ row ∈ db4.subscription_items, row.obj.id = "B") ∧
      (∀ i, hasId [⟨{ id := "A", object := "subscription_item", subscription := some "P" }, some 1⟩,
               ⟨{ id := "B", object := "subscription_item", subscription := some "P" }, some 1⟩,
               ⟨{ id := "C", object := "subscription_item", subscription := some "P" }, some 1⟩] i →
        hasId db4.subscription_items i) :=
  C3_subscription_item_diff {}
    { retrieve := fun _ i => Except.ok { id := i }, listAll := fun _ _ => [], now := 7 }
    { subscription_items :=
        [⟨{ id := "A", object := "subscription_item", subscription := some "P" }, some 1⟩,
         ⟨{ id := "B", object := "subscription_item", subscription := some "P" }, some 1⟩,
         ⟨{ id := "C", object := "subscription_item", subscription := some "P" }, some 1⟩] }
    { id := "P",
      items := some ⟨[{ id := "A", subscription := some "P" },
                      { id := "C", subscription := some "P" }], false⟩ }
    "A" "B" "C"
    { id := "A", subscription := some "P" } { id := "C", subscription := some "P" } 2
    rfl rfl rfl rfl rfl (by decide) (by decide) (by decide) (by decide)
    (by
      intro x hx
      fin_cases hx
      · exact ⟨⟨{ id := "A", object := "subscription_item", subscription := some "P" }, some 1⟩,
          by decide, by decide⟩
      · exact ⟨⟨{ id := "B", object := "subscription_item", subscription := some "P" }, some 1⟩,
          by decide, by decide⟩
      · exact ⟨⟨{ id := "C", object := "subscription_item", subscription := some "P" }, some 1⟩,
          by decide, by decide⟩)

theorem upsertRow_exists_prop (rec : Obj) (ts : Option Nat) (t : List Row)
    (Q : Row → Prop) (hrec : Q ⟨rec, ts⟩)
    (hall : ∀ row ∈ t, row.obj.id = rec.id → Q row)
    (hex : ∃ row ∈ t, row.obj.id = rec.id) :
    ∃ row ∈ upsertRow rec ts t, Q row ∧ row.obj.id = rec.id := by
  induction t with
  | nil =>
    obtain ⟨w, hw, _⟩ := hex
    exact absurd hw (List.not_mem_nil w)
  | cons head rest ih =>
    rw [upsertRow]
    by_cases hid : head.obj.id = rec.id
    · simp only [hid, if_true]
      by_cases hg : staleGuard head ts
      · simp only [hg, if_true]
        exact ⟨head, List.mem_cons_self _ _, hall head (List.mem_cons_self _ _) hid, hid⟩
      · simp only [hg, if_false]
        exact ⟨⟨rec, ts⟩, List.mem_cons_self _ _, hrec, rfl⟩
    · simp only [hid, if_false]
      obtain ⟨w, hw, hwi⟩ := hex
      have hwrest : w ∈ rest := by
        rcases List.mem_cons.mp hw with h1 | h1
        · exact absurd (h1 ▸ hwi) hid
        · exact h1
      obtain ⟨v, hv, hvq, hvi⟩ := ih
        (fun row hrow hri => hall row (List.mem_cons_of_mem _ hrow) hri)
        ⟨w, hwrest, hwi⟩
      exact ⟨v, List.mem_cons_of_mem _ hv, hvq, hvi⟩

/-- C4: an entitlement summary event for customer Z carrying only the
entitlement Y first hard-deletes every stored entitlement row of Z absent
from the new list — shown both by the router factoring through the
delete-then-upsert composition and by X being gone from the intermediate
state — and then upserts the new list, so that afterwards the
entitlements stored for Z are exactly those of the new list and no row
for X exists at all. -/
theorem C4_entitlement_diff (cfg : Config) (api : Api) (db : DB) (ev : Event)
    (Z X Y : String) (itY : Item) (hm : Bool)
    (hty : ev.type = "entitlements.active_entitlement_summary.updated")
    (hcust : ev.obj.customer = some Z)
    (hent : ev.obj.entitlements = some ⟨[itY], hm⟩)
    (hrev : "entitlements" ∉ cfg.revalidate_objects_via_stripe_api)
    (hitY : itY.id = Y) (hfeat : itY.feature ≠ Ref.missing)
    (hXY : X ≠ Y)
    (hnodup : (db.active_entitlements.map (fun r => r.obj.id)).Nodup)
    (hX : ∃ row ∈ db.active_entitlements, row.obj.id = X ∧ row.obj.customer = some Z)
    (hY : ∃ row ∈ db.active_entitlements, row.obj.id = Y ∧ row.obj.customer = some Z) :
    ∃ db2, processEvent cfg api db ev = Except.ok db2 ∧
      processEvent cfg api db ev =
        upsertActiveEntitlements cfg api (deleteRemovedActiveEntitlements db Z [Y]).1
          Z [itY] (some false) (some ev.created) ∧
      (∀ row ∈ ((deleteRemovedActiveEntitlements db Z [Y]).1).active_entitlements,
        ¬(row.obj.customer = some Z ∧ row.obj.id = X)) ∧
      (∀ row ∈ db2.active_entitlements, row.obj.customer = some Z → row.obj.id = Y) ∧
      (∃ row ∈ db2.active_entitlements, row.obj.customer = some Z ∧ row.obj.id = Y) ∧
      (∀ row ∈ db2.active_entitlements, row.obj.id ≠ X) := by
  have hpe : processEvent cfg api db ev =
      upsertActiveEntitlements cfg api (deleteRemovedActiveEntitlements db Z [Y]).1
        Z [itY] (some false) (some ev.created) := by
    rw [processEvent]
    simp only [hty]
    norm_num [chargeEventTypes, checkoutSessionEventTypes, customerEventTypes,
      subscriptionEventTypes, taxIdEventTypes, invoiceEventTypes, productCUEventTypes,
      priceCUEventTypes, planCUEventTypes, setupIntentEventTypes,
      subscriptionScheduleEventTypes, paymentMethodEventTypes, disputeEventTypes,
      paymentIntentEventTypes, creditNoteEventTypes, earlyFraudWarningEventTypes,
      refundEventTypes, reviewEventTypes]
    rw [hent, hcust]
    simp [hrev, hitY, getSyncTimestamp]
  set d1 := (deleteRemovedActiveEntitlements db Z [Y]).1 with hd1def
  set rowY := entitlementToRow Z itY with hrowYdef
  have hrowY_id : rowY.id = Y := by rw [hrowYdef, entitlementToRow, hitY]
  have hrowY_cust : rowY.customer = some Z := by rw [hrowYdef, entitlementToRow]
  set t2 := upsertManyTP d1.active_entitlements [rowY] (some ev.created) with ht2def
  have hup : upsertActiveEntitlements cfg api d1 Z [itY] (some false) (some ev.created) =
      Except.ok { d1 with active_entitlements := t2 } := by
    rw [upsertActiveEntitlements]
    have hanyf : [itY].any (fun e => e.feature == Ref.missing) = false := by
      simp [hfeat]
    simp [resolveBackfill, hanyf, Bind.bind, Except.bind, pure, Except.pure, ht2def, hrowYdef]
  have hd1sub : d1.active_entitlements = db.active_entitlements.filter
      (fun r => !(r.obj.customer == some Z && !([Y].contains r.obj.id))) := by
    rw [hd1def, deleteRemovedActiveEntitlements]
  have hd1mem : ∀ row ∈ d1.active_entitlements,
      row ∈ db.active_entitlements ∧
        (row.obj.customer = some Z → row.obj.id = Y) := by
    intro row hrow
    rw [hd1sub, List.mem_filter] at hrow
    obtain ⟨hdb, hpred⟩ := hrow
    refine ⟨hdb, ?_⟩
    intro hc
    simp [hc, List.contains, List.elem_iff] at hpred
    exact hpred
  have hZrowsY : ∀ row ∈ d1.active_entitlements,
      row.obj.customer = some Z → row.obj.id = Y :=
    fun row hrow hc => (hd1mem row hrow).2 hc
  have hXgone : ∀ row ∈ d1.active_entitlements,
      ¬(row.obj.customer = some Z ∧ row.obj.id = X) := by
    intro row hrow ⟨hc, hi⟩
    have hpred := hZrowsY row hrow hc
    rw [hi] at hpred
    exact hXY hpred
  have hnoX : ∀ row ∈ d1.active_entitlements, row.obj.id ≠ X := by
    intro row hrow hi
    obtain ⟨hdb, _⟩ := hd1mem row hrow
    obtain ⟨rX, hrXmem, hrXid, hrXcust⟩ := hX
    have : row = rX := List.inj_on_of_nodup_map hnodup hdb hrXmem (by rw [hi, hrXid])
    exact hXgone row hrow ⟨by rw [this]; exact hrXcust, hi⟩
  have hY_d1 : ∃ row ∈ d1.active_entitlements, row.obj.id = Y ∧
      row.obj.customer = some Z := by
    obtain ⟨rY, hrYmem, hrYid, hrYcust⟩ := hY
    refine ⟨rY, ?_, hrYid, hrYcust⟩
    rw [hd1sub, List.mem_filter]
    refine ⟨hrYmem, ?_⟩
    simp [hrYid, List.contains, List.elem_iff]
  have hnodup_d1 : (d1.active_entitlements.map (fun r => r.obj.id)).Nodup := by
    rw [hd1sub]
    exact ((List.filter_sublist _).map _).nodup hnodup
  refine ⟨_, by rw [hpe, hup], by rw [hpe], hXgone, ?_, ?_, ?_⟩
  · intro row hrow hc
    rw [ht2def] at hrow
    simp only [upsertManyTP, List.foldl_cons, List.foldl_nil] at hrow
    rcases upsertRow_mem_cases rowY (some ev.created) _ row hrow with h1 | h1
    · exact hZrowsY row h1 hc
    · rw [h1]
      exact hrowY_id
  · rw [ht2def]
    simp only [upsertManyTP, List.foldl_cons, List.foldl_nil]
    obtain ⟨v, hv, hvq, hvi⟩ := upsertRow_exists_prop rowY (some ev.created)
      d1.active_entitlements (fun row => row.obj.customer = some Z)
      (by exact hrowY_cust)
      (by
        intro row hrow hri
        obtain ⟨rY, hrYmem, hrYid, hrYcust⟩ := hY_d1
        have : row = rY := List.inj_on_of_nodup_map hnodup_d1 hrow hrYmem
          (by rw [hri, hrowY_id, hrYid])
        rw [this]
        exact hrYcust)
      (by
        obtain ⟨rY, hrYmem, hrYid, hrYcust⟩ := hY_d1
        exact ⟨rY, hrYmem, by rw [hrYid, hrowY_id]⟩)
    exact ⟨v, hv, hvq, by rw [hvi, hrowY_id]⟩
  · intro row hrow
    rw [ht2def] at hrow
    simp only [upsertManyTP, List.foldl_cons, List.foldl_nil] at hrow
    rcases upsertRow_mem_cases rowY (some ev.created) _ row hrow with h1 | h1
    · exact hnoX row h1
    · rw [h1]
      simp only []
      rw [hrowY_id]
      exact fun h => hXY h.symm

/-- Witness for C4: customer Z with stored entitlements X and Y receiving
a summary carrying only Y. -/
theorem C4_entitlement_diff_witness :
    ∃ db2,
      processEvent {} { retrieve := fun _ i => Except.ok { id := i }, listAll := fun _ _ => [], now := 7 }
          { active_entitlements := [⟨{ id := "X", customer := some "Z" }, some 1⟩,
                                    ⟨{ id := "Y", customer := some "Z" }, some 1⟩] }
          { type := "entitlements.active_entitlement_summary.updated", created := 5,
            obj := { id := "", object := "entitlement_summary", customer := some "Z",
                     entitlements := some ⟨[{ id := "Y", feature := Ref.strRef "f1" }], false⟩ } } =
        Except.ok db2 ∧
      processEvent {} { retrieve := fun _ i => Except.ok { id := i }, listAll := fun _ _ => [], now := 7 }
          { active_entitlements := [⟨{ id := "X", customer := some "Z" }, some 1⟩,
                                    ⟨{ id := "Y", customer := some "Z" }, some 1⟩] }
          { type := "entitlements.active_entitlement_summary.updated", created := 5,
            obj := { id := "", object := "entitlement_summary", customer := some "Z",
                     entitlements := some ⟨[{ id := "Y", feature := Ref.strRef "f1" }], false⟩ } } =
        upsertActiveEntitlements {}
          { retrieve := fun _ i => Except.ok { id := i }, listAll := fun _ _ => [], now := 7 }
          (deleteRemovedActiveEntitlements
            { active_entitlements := [⟨{ id := "X", customer := some "Z" }, some 1⟩,
                                      ⟨{ id := "Y", customer := some "Z" }, some 1⟩] }
            "Z" ["Y"]).1
          "Z" [{ id := "Y", feature := Ref.strRef "f1" }] (some false) (some 5) ∧
      (∀ row ∈ ((deleteRemovedActiveEntitlements
          { active_entitlements := [⟨{ id := "X", customer := some "Z" }, some 1⟩,
                                    ⟨{ id := "Y", customer := some "Z" }, some 1⟩] }
          "Z" ["Y"]).1).active_entitlements,
        ¬(row.obj.customer = some "Z" ∧ row.obj.id = "X")) ∧
      (∀ row ∈ db2.active_entitlements, row.obj.customer = some "Z" → row.obj.id = "Y") ∧
      (∃ row ∈ db2.active_entitlements, row.obj.customer = some "Z" ∧ row.obj.id = "Y") ∧
      (∀ row ∈ db2.active_entitlements, row.obj.id ≠ "X") :=
  C4_entitlement_diff {}
    { retrieve := fun _ i => Except.ok { id := i }, listAll := fun _ _ => [], now := 7 }
    { active_entitlements := [⟨{ id := "X", customer := some "Z" }, some 1⟩,
                              ⟨{ id := "Y", customer := some "Z" }, some 1⟩] }
    { type := "entitlements.active_entitlement_summary.updated", created := 5,
      obj := { id := "", object := "entitlement_summary", customer := some "Z",
               entitlements := some ⟨[{ id := "Y", feature := Ref.strRef "f1" }], false⟩ } }
    "Z" "X" "Y" { id := "Y", feature := Ref.strRef "f1" } false
    rfl rfl rfl (by decide) rfl (by decide) (by decide) (by decide)
    ⟨⟨{ id := "X", customer := some "Z" }, some 1⟩, by decide, by decide⟩
    ⟨⟨{ id := "Y", customer := some "Z" }, some 1⟩, by decide, by decide⟩

theorem mapM_retrieve_ok (api : Api) (g : String → String → Obj)
    (Hok : ∀ k i, api.retrieve k i = Except.ok (g k i)) (k : String) :
    ∀ l : List String, l.mapM (api.retrieve k) = Except.ok (l.map (g k)) := by
  intro l
  induction l with
  | nil => rfl
  | cons a rest ih =>
    rw [List.mapM_cons, Hok, ih]
    rfl

theorem upsertCustomers_covers (db : DB) (cs : List Obj) (ts : Option Nat) :
    ∀ o ∈ cs, hasId (upsertCustomers db cs ts).customers o.id := by
  intro o ho
  rw [upsertCustomers]
  by_cases hd : o.deleted
  · exact upsertManyTP_adds _ _ ts o (by
      rw [List.mem_filter]
      exact ⟨ho, by simp [hd]⟩)
  · apply upsertManyTP_keeps
    exact upsertManyTP_adds _ _ ts o (by
      rw [List.mem_filter]
      exact ⟨ho, by simp [hd]⟩)

theorem upsertCustomers_keeps (db : DB) (cs : List Obj) (ts : Option Nat) (i : String)
    (h : hasId db.customers i) : hasId (upsertCustomers db cs ts).customers i := by
  rw [upsertCustomers]
  exact upsertManyTP_keeps _ _ ts i (upsertManyTP_keeps _ _ ts i h)

theorem upsertCustomers_invoices (db : DB) (cs : List Obj) (ts : Option Nat) :
    (upsertCustomers db cs ts).invoices = db.invoices := rfl

theorem upsertCustomers_charges (db : DB) (cs : List Obj) (ts : Option Nat) :
    (upsertCustomers db cs ts).charges = db.charges := rfl

theorem backfillCustomers_ok (api : Api) (db : DB) (ids : List String)
    (g : String → String → Obj)
    (Hok : ∀ k i, api.retrieve k i = Except.ok (g k i))
    (Hid : ∀ k i, (g k i).id = i) :
    backfillCustomers api db ids =
      Except.ok (upsertCustomers db
        ((findMissingEntries db.customers ids).map (g "customer")) none) ∧
    (∀ i ∈ ids, hasId (upsertCustomers db
        ((findMissingEntries db.customers ids).map (g "customer")) none).customers i) := by
  have hfetch : fetchMissingEntities (findMissingEntries db.customers ids)
      (api.retrieve "customer") =
      Except.ok ((findMissingEntries db.customers ids).map (g "customer")) := by
    rw [fetchMissingEntities]
    exact mapM_retrieve_ok api g Hok "customer" _
  constructor
  · rw [backfillCustomers]
    simp [hfetch, Bind.bind, Except.bind, pure, Except.pure]
  · intro i hi
    rcases findMissingEntries_cases db.customers ids i hi with hmiss | hlive
    · have hcov := upsertCustomers_covers db
        ((findMissingEntries db.customers ids).map (g "customer")) none
        (g "customer" i) (List.mem_map_of_mem _ hmiss)
      rw [Hid] at hcov
      exact hcov
    · obtain ⟨row, hrow, hri, _⟩ := hlive
      exact upsertCustomers_keeps db _ none i ⟨row, hrow, hri⟩

theorem markDeleted_fields (d : DB) (s : String) (ids : List String) :
    (markDeletedSubscriptionItems d s ids).1.customers = d.customers ∧
    (markDeletedSubscriptionItems d s ids).1.invoices = d.invoices ∧
    (markDeletedSubscriptionItems d s ids).1.charges = d.charges := by
  simp only [markDeletedSubscriptionItems]
  split
  · exact ⟨rfl, rfl, rfl⟩
  · exact ⟨rfl, rfl, rfl⟩

theorem markFold_fields (l : List Obj) (d : DB) :
    ((l.foldl (fun d2 s =>
      (markDeletedSubscriptionItems d2 s.id ((subItemsData s).map (fun i => i.id))).1) d)).customers
        = d.customers ∧
    ((l.foldl (fun d2 s =>
      (markDeletedSubscriptionItems d2 s.id ((subItemsData s).map (fun i => i.id))).1) d)).invoices
        = d.invoices ∧
    ((l.foldl (fun d2 s =>
      (markDeletedSubscriptionItems d2 s.id ((subItemsData s).map (fun i => i.id))).1) d)).charges
        = d.charges := by
  induction l generalizing d with
  | nil => exact ⟨rfl, rfl, rfl⟩
  | cons s rest ih =>
    rw [List.foldl_cons]
    obtain ⟨ih1, ih2, ih3⟩ := ih ((markDeletedSubscriptionItems d s.id
      ((subItemsData s).map (fun i => i.id))).1)
    obtain ⟨m1, m2, m3⟩ := markDeleted_fields d s.id ((subItemsData s).map (fun i => i.id))
    exact ⟨by rw [ih1, m1], by rw [ih2, m2], by rw [ih3, m3]⟩

theorem upsertSubscriptions_ok (cfg : Config) (api : Api) (db : DB) (subs : List Obj)
    (bf : Option Bool) (ts : Option Nat) (g : String → String → Obj)
    (Hok : ∀ k i, api.retrieve k i = Except.ok (g k i))
    (Hid : ∀ k i, (g k i).id = i) :
    ∃ d2, upsertSubscriptions cfg api db subs bf ts = Except.ok d2 ∧
      (∀ i, hasId db.customers i → hasId d2.customers i) ∧
      d2.invoices = db.invoices ∧ d2.charges = db.charges := by
  by_cases hres : resolveBackfill bf cfg = true
  · obtain ⟨hbc_eq, _⟩ := backfillCustomers_ok api db
      (getUniqueIds subs (fun s => s.customer)) g Hok Hid
    set d1 := upsertCustomers db
      ((findMissingEntries db.customers (getUniqueIds subs (fun s => s.customer))).map
        (g "customer")) none with hd1def
    set subs1 := expandEntity cfg api subs (fun s => s.items)
      (fun s l => { s with items := some l }) "subscription_item" with hsubs1def
    set d3 := upsertSubscriptionItems
      { d1 with subscriptions := upsertManyTP d1.subscriptions subs1 ts }
      (subs1.foldl (fun acc s => acc ++ subItemsData s) []) ts with hd3def
    set d4 := subs1.foldl (fun d2 s =>
      (markDeletedSubscriptionItems d2 s.id ((subItemsData s).map (fun i => i.id))).1) d3
      with hd4def
    have heq : upsertSubscriptions cfg api db subs bf ts = Except.ok d4 := by
      rw [upsertSubscriptions]
      simp [hres, hbc_eq, Bind.bind, Except.bind, pure, Except.pure, hd4def, hd3def,
        ← hd1def, ← hsubs1def]
    obtain ⟨f1, f2, f3⟩ := markFold_fields subs1 d3
    have hd3c : d3.customers = d1.customers := rfl
    have hd3i : d3.invoices = d1.invoices := rfl
    have hd3ch : d3.charges = d1.charges := rfl
    refine ⟨d4, heq, ?_, ?_, ?_⟩
    · intro i hi
      rw [hd4def, f1, hd3c]
      exact upsertCustomers_keeps db _ none i hi
    · rw [hd4def, f2, hd3i, hd1def, upsertCustomers_invoices]
    · rw [hd4def, f3, hd3ch, hd1def, upsertCustomers_charges]
  · set subs1 := expandEntity cfg api subs (fun s => s.items)
      (fun s l => { s with items := some l }) "subscription_item" with hsubs1def
    set d3 := upsertSubscriptionItems
      { db with subscriptions := upsertManyTP db.subscriptions subs1 ts }
      (subs1.foldl (fun acc s => acc ++ subItemsData s) []) ts with hd3def
    set d4 := subs1.foldl (fun d2 s =>
      (markDeletedSubscriptionItems d2 s.id ((subItemsData s).map (fun i => i.id))).1) d3
      with hd4def
    have heq : upsertSubscriptions cfg api db subs bf ts = Except.ok d4 := by
      rw [upsertSubscriptions]
      simp [hres, Bind.bind, Except.bind, pure, Except.pure, hd4def, hd3def, ← hsubs1def]
    obtain ⟨f1, f2, f3⟩ := markFold_fields subs1 d3
    refine ⟨d4, heq, ?_, ?_, ?_⟩
    · intro i hi
      rw [hd4def, f1]
      exact hi
    · rw [hd4def, f2, hd3def]
      rfl
    · rw [hd4def, f3, hd3def]
      rfl

theorem backfillSubscriptions_ok (cfg : Config) (api : Api) (db : DB) (ids : List String)
    (g : String → String → Obj)
    (Hok : ∀ k i, api.retrieve k i = Except.ok (g k i))
    (Hid : ∀ k i, (g k i).id = i) :
    ∃ d2, backfillSubscriptions cfg api db ids = Except.ok d2 ∧
      (∀ i, hasId db.customers i → hasId d2.customers i) ∧
      d2.invoices = db.invoices ∧ d2.charges = db.charges := by
  have hfetch : fetchMissingEntities (findMissingEntries db.subscriptions ids)
      (api.retrieve "subscription") =
      Except.ok ((findMissingEntries db.subscriptions ids).map (g "subscription")) := by
    rw [fetchMissingEntities]
    exact mapM_retrieve_ok api g Hok "subscription" _
  obtain ⟨d2, heq, hmono, hinv, hch⟩ := upsertSubscriptions_ok cfg api db
    ((findMissingEntries db.subscriptions ids).map (g "subscription")) none none g Hok Hid
  refine ⟨d2, ?_, hmono, hinv, hch⟩
  rw [backfillSubscriptions]
  simp [hfetch, Bind.bind, Except.bind, heq]

theorem expandEntity_ids (cfg : Config) (api : Api) (entities : List Obj)
    (get : Obj → Option EmbList) (set : Obj → EmbList → Obj) (kind : String)
    (hset : ∀ e l, (set e l).id = e.id) :
    ∀ o ∈ entities, ∃ o2 ∈ expandEntity cfg api entities get set kind, o2.id = o.id := by
  intro o ho
  rw [expandEntity]
  by_cases hauto : cfg.auto_expand_lists
  · simp only [hauto, Bool.not_true, Bool.false_eq_true, if_false]
    refine ⟨_, List.mem_map_of_mem _ ho, ?_⟩
    cases hget : get o with
    | none => simp [hget]
    | some l =>
      by_cases hmore : l.has_more
      · simp [hget, hmore, hset]
      · simp [hget, hmore]
  · simp only [hauto, Bool.not_false, if_true]
    exact ⟨o, ho, rfl⟩

theorem getUniqueIds_mem (entries : List Obj) (key : Obj → Option String)
    (o : Obj) (F : String) (ho : o ∈ entries) (hk : key o = some F) (hne : F ≠ "") :
    F ∈ getUniqueIds entries key := by
  rw [getUniqueIds, List.mem_dedup, List.mem_filter]
  refine ⟨List.mem_filterMap.mpr ⟨o, ho, hk⟩, by simp [hne]⟩

theorem upsertInvoices_ok (cfg : Config) (api : Api) (db : DB) (invs : List Obj)
    (bf : Option Bool) (ts : Option Nat) (g : String → String → Obj)
    (Hok : ∀ k i, api.retrieve k i = Except.ok (g k i))
    (Hid : ∀ k i, (g k i).id = i) :
    ∃ d2, upsertInvoices cfg api db invs bf ts = Except.ok d2 ∧
      (∀ i, hasId db.customers i → hasId d2.customers i) ∧
      (∀ i, hasId db.invoices i → hasId d2.invoices i) ∧
      (∀ o ∈ invs, hasId d2.invoices o.id) ∧
      d2.charges = db.charges := by
  have hexp := expandEntity_ids cfg api invs (fun i => i.lines)
    (fun i l => { i with lines := some l }) "invoice_line_item" (fun e l => rfl)
  set invs1 := expandEntity cfg api invs (fun i => i.lines)
    (fun i l => { i with lines := some l }) "invoice_line_item" with hinvs1def
  by_cases hres : resolveBackfill bf cfg = true
  · obtain ⟨hbc_eq, _⟩ := backfillCustomers_ok api db
      (getUniqueIds invs (fun i => i.customer)) g Hok Hid
    set d1 := upsertCustomers db
      ((findMissingEntries db.customers (getUniqueIds invs (fun i => i.customer))).map
        (g "customer")) none with hd1def
    obtain ⟨dS, hbs_eq, hSmono, hSinv, hSch⟩ := backfillSubscriptions_ok cfg api d1
      (getUniqueIds invs (fun i => i.subscription)) g Hok Hid
    refine ⟨{ dS with invoices := upsertManyTP dS.invoices invs1 ts }, ?_, ?_, ?_, ?_, ?_⟩
    · rw [upsertInvoices]
      simp [hres, hbc_eq, hbs_eq, Bind.bind, Except.bind, pure, Except.pure,
        ← hd1def, ← hinvs1def]
    · intro i hi
      exact hSmono i (upsertCustomers_keeps db _ none i hi)
    · intro i hi
      have h1 : hasId d1.invoices i := by
        rw [hd1def, upsertCustomers_invoices]
        exact hi
      rw [← hSinv] at h1
      exact upsertManyTP_keeps _ _ ts i h1
    · intro o ho
      obtain ⟨o2, ho2, hid2⟩ := hexp o ho
      have := upsertManyTP_adds dS.invoices invs1 ts o2 ho2
      rw [hid2] at this
      exact this
    · show dS.charges = db.charges
      rw [hSch, hd1def, upsertCustomers_charges]
  · refine ⟨{ db with invoices := upsertManyTP db.invoices invs1 ts }, ?_, ?_, ?_, ?_, rfl⟩
    · rw [upsertInvoices]
      simp [hres, Bind.bind, Except.bind, pure, Except.pure, ← hinvs1def]
    · intro i hi
      exact hi
    · intro i hi
      exact upsertManyTP_keeps _ _ ts i hi
    · intro o ho
      obtain ⟨o2, ho2, hid2⟩ := hexp o ho
      have := upsertManyTP_adds db.invoices invs1 ts o2 ho2
      rw [hid2] at this
      exact this

theorem backfillInvoices_ok (cfg : Config) (api : Api) (db : DB) (ids : List String)
    (g : String → String → Obj)
    (Hok : ∀ k i, api.retrieve k i = Except.ok (g k i))
    (Hid : ∀ k i, (g k i).id = i) :
    ∃ d2, backfillInvoices cfg api db ids = Except.ok d2 ∧
      (∀ i ∈ ids, hasId d2.invoices i) ∧
      (∀ i, hasId db.customers i → hasId d2.customers i) ∧
      d2.charges = db.charges := by
  have hfetch : fetchMissingEntities (findMissingEntries db.invoices ids)
      (api.retrieve "invoice") =
      Except.ok ((findMissingEntries db.invoices ids).map (g "invoice")) := by
    rw [fetchMissingEntities]
    exact mapM_retrieve_ok api g Hok "invoice" _
  obtain ⟨d2, heq, hcmono, himono, hicov, hch⟩ := upsertInvoices_ok cfg api db
    ((findMissingEntries db.invoices ids).map (g "invoice")) none none g Hok Hid
  refine ⟨d2, ?_, ?_, hcmono, hch⟩
  · rw [backfillInvoices]
    simp [hfetch, Bind.bind, Except.bind, heq]
  · intro i hi
    rcases findMissingEntries_cases db.invoices ids i hi with hmiss | hlive
    · have := hicov (g "invoice" i) (List.mem_map_of_mem _ hmiss)
      rw [Hid] at this
      exact this
    · obtain ⟨row, hrow, hri, _⟩ := hlive
      exact himono i ⟨row, hrow, hri⟩

/-- C2: with related-entity backfill enabled (configured toggle or
per-call override) and the source API answering retrievals, an upsert of
a batch of charges succeeds and, for every charge of the batch, after the
call returns a row exists in the customers table for its referenced
customer id and in the invoices table for its referenced invoice id —
each previously-absent id having been fetched from the source API and
upserted before the charge rows were written — and the charge row itself
is stored. -/
theorem C2_referential_backfill (cfg : Config) (api : Api) (db : DB)
    (charges : List Obj) (bf : Option Bool) (ts : Option Nat) (ch : Obj)
    (g : String → String → Obj)
    (Hok : ∀ k i, api.retrieve k i = Except.ok (g k i))
    (Hid : ∀ k i, (g k i).id = i)
    (hbf : resolveBackfill bf cfg = true)
    (hch : ch ∈ charges) :
    ∃ db2, upsertCharges cfg api db charges bf ts = Except.ok db2 ∧
      (∀ F, ch.customer = some F → F ≠ "" → hasId db2.customers F) ∧
      (∀ G, ch.invoice = some G → G ≠ "" → hasId db2.invoices G) ∧
      hasId db2.charges ch.id := by
  have hexp := expandEntity_ids cfg api charges (fun c => c.refunds)
    (fun c l => { c with refunds := some l }) "refund" (fun e l => rfl)
  set charges1 := expandEntity cfg api charges (fun c => c.refunds)
    (fun c l => { c with refunds := some l }) "refund" with hcharges1def
  obtain ⟨hbc_eq, hcuscov⟩ := backfillCustomers_ok api db
    (getUniqueIds charges (fun c => c.customer)) g Hok Hid
  set d1 := upsertCustomers db
    ((findMissingEntries db.customers (getUniqueIds charges (fun c => c.customer))).map
      (g "customer")) none with hd1def
  obtain ⟨d2, hbi_eq, hinvcov, hcustmono, hchg⟩ := backfillInvoices_ok cfg api d1
    (getUniqueIds charges (fun c => c.invoice)) g Hok Hid
  refine ⟨{ d2 with charges := upsertManyTP d2.charges charges1 ts }, ?_, ?_, ?_, ?_⟩
  · rw [upsertCharges]
    simp [hbf, hbc_eq, hbi_eq, Bind.bind, Except.bind, pure, Except.pure,
      ← hd1def, ← hcharges1def]
  · intro F hF hFne
    have hFin : F ∈ getUniqueIds charges (fun c => c.customer) :=
      getUniqueIds_mem charges _ ch F hch hF hFne
    exact hcustmono F (hcuscov F hFin)
  · intro G hG hGne
    have hGin : G ∈ getUniqueIds charges (fun c => c.invoice) :=
      getUniqueIds_mem charges _ ch G hch hG hGne
    exact hinvcov G hGin
  · obtain ⟨o2, ho2, hid2⟩ := hexp ch hch
    have := upsertManyTP_adds d2.charges charges1 ts o2 ho2
    rw [hid2] at this
    exact this

/-- Witness for C2: a charge referencing a customer and an invoice that
are both absent from the store, upserted with the per-call backfill
override set. -/
theorem C2_referential_backfill_witness :
    ∃ db2, upsertCharges {}
        { retrieve := fun _ i => Except.ok { id := i }, listAll := fun _ _ => [], now := 7 }
        {} [{ id := "ch_1", object := "charge", customer := some "cus_9", invoice := some "in_3" }]
        (some true) (some 5) = Except.ok db2 ∧
      (∀ F, ({ id := "ch_1", object := "charge", customer := some "cus_9", invoice := some "in_3" } : Obj).customer = some F → F ≠ "" → hasId db2.customers F) ∧
      (∀ G, ({ id := "ch_1", object := "charge", customer := some "cus_9", invoice := some "in_3" } : Obj).invoice = some G → G ≠ "" → hasId db2.invoices G) ∧
      hasId db2.charges ({ id := "ch_1", object := "charge", customer := some "cus_9", invoice := some "in_3" } : Obj).id :=
  C2_referential_backfill {}
    { retrieve := fun _ i => Except.ok { id := i }, listAll := fun _ _ => [], now := 7 }
    {} [{ id := "ch_1", object := "charge", customer := some "cus_9", invoice := some "in_3" }]
    (some true) (some 5)
    { id := "ch_1", object := "charge", customer := some "cus_9", invoice := some "in_3" }
    (fun _ i => { id := i })
    (fun _ _ => rfl) (fun _ _ => rfl) (by decide) (by decide)
